import Mathlib

/-!
Verification of the PlantUML → draw.io converter (`plantUML_drawio.py`).

The program is shallowly embedded over `Str := List Char`: Python strings
become character lists, the regular expressions used by the parsers become
hand-rolled deterministic matchers that reproduce Python's leftmost-greedy
backtracking semantics on the concrete patterns of the source, dictionaries
become association lists (built newest-first, so that a first-match lookup
realises Python's last-write-wins assignment), and the mutable parser /
generator state is threaded explicitly.  The generator's `self.cell_id`
counter (initialised to 2 in the source) is a parameter, so that properties
about identifier numbering can be stated.
-/

set_option maxHeartbeats 4000000
set_option maxRecDepth 8000

abbrev Str := List Char

/-- Characters of a string literal. -/
def chars (s : String) : Str := s.data

/-- Python whitespace (`str.strip`, regex `\s`), ASCII fragment. -/
def isWS (c : Char) : Bool :=
  c = ' ' || c = '\t' || c = '\n' || c = '\r' || c = '\x0b' || c = '\x0c'

/-- Python `str.strip()` (no argument): whitespace off both ends. -/
def pyStrip (l : Str) : Str :=
  ((l.dropWhile isWS).reverse.dropWhile isWS).reverse

/-- Python `str.strip(cs)`: all characters of `cs` off both ends. -/
def pyStripChars (cs : Str) (l : Str) : Str :=
  ((l.dropWhile (fun c => c ∈ cs)).reverse.dropWhile (fun c => c ∈ cs)).reverse

/-- Python `str.startswith`. -/
def pyStarts (p l : Str) : Bool := p.isPrefixOf l

/-- Python `str.endswith(c)` for a one-character suffix. -/
def pyEndsChar (c : Char) (l : Str) : Bool :=
  match l.getLast? with
  | some d => d = c
  | none => false

/-- Python substring containment `p in l`. -/
def isSubstr (p : Str) : Str → Bool
  | [] => p.isEmpty
  | c :: rest => p.isPrefixOf (c :: rest) || isSubstr p rest

/-- Python `str.lower()`, ASCII fragment. -/
def pyLower (l : Str) : Str := l.map Char.toLower

/-- Python `content.split('\n')`. -/
def splitNl : Str → List Str
  | [] => [[]]
  | c :: rest =>
    if c = '\n' then [] :: splitNl rest
    else
      match splitNl rest with
      | [] => [[c]]
      | l :: ls => (c :: l) :: ls

/-- Decimal digits of a natural number (for the generated identifiers). -/
def natStrAux : Nat → Nat → Str
  | 0, _ => []
  | f + 1, n =>
    if n < 10 then [Char.ofNat (48 + n)]
    else natStrAux f (n / 10) ++ [Char.ofNat (48 + n % 10)]

def natStr (n : Nat) : Str := natStrAux (n + 1) n

/-- Python `str.replace(old, new)` (left to right, non-overlapping);
fuelled recursion, fuel = length of the subject. -/
def replaceAllF : Nat → Str → Str → Str → Str
  | 0, s, _, _ => s
  | _ + 1, [], _, _ => []
  | f + 1, c :: rest, old, new =>
    if old ≠ [] && old.isPrefixOf (c :: rest) then
      new ++ replaceAllF f ((c :: rest).drop old.length) old new
    else c :: replaceAllF f rest old new

def pyReplace (s old new : Str) : Str := replaceAllF s.length s old new

/-- `\n` (two characters in the source) to the `__NEWLINE__` placeholder,
as done for participant and use-case names. -/
def replaceNl (s : Str) : Str := pyReplace s (chars "\\n") (chars "__NEWLINE__")

/-! ### Regex building blocks

Each Python regex of the source is implemented as a deterministic
recursive matcher reproducing `re.match`'s leftmost-greedy backtracking
on that concrete pattern (prefix match: trailing input is ignored). -/

/-- Literal pattern fragment: consume `p` or fail. -/
def lit (p s : Str) : Option Str :=
  if p.isPrefixOf s then some (s.drop p.length) else none

/-- `\s*` (greedy; in the source's patterns it is always followed by a
non-space-initial fragment, so no backtracking is needed). -/
def skipWS (s : Str) : Str := s.dropWhile isWS

/-- `\s+` (at least one whitespace character, then greedy). -/
def ws1 (s : Str) : Option Str :=
  match s with
  | c :: rest => if isWS c then some (rest.dropWhile isWS) else none
  | [] => none

/-- `(\S+)` : the maximal non-space token (greedy; used where the
continuation always succeeds, so no backtracking). -/
def tokNS (s : Str) : Option (Str × Str) :=
  let t := s.takeWhile (fun c => !isWS c)
  if t = [] then none else some (t, s.drop t.length)

/-- Backtracking for a leading `(\S+)` whose continuation can fail:
try the maximal non-space token first, then ever shorter prefixes,
as Python's greedy `\S+` does. `tok` is the maximal token, `rest`
what follows it; candidates have length `n, n-1, …, 1`. -/
def tryG1 {α : Type} : Nat → Str → Str → (Str → Str → Option α) → Option α
  | 0, _, _, _ => none
  | n + 1, tok, rest, k =>
    match k (tok.take (n + 1)) (tok.drop (n + 1) ++ rest) with
    | some a => some a
    | none => tryG1 n tok rest k

/-! ### Activity-diagram regexes -/

/-- `if\s*\(([^)]+)\)\s*then\s*\(([^)]*)\)` (line 439). -/
def matchIfThen (line : Str) : Option (Str × Str) := do
  let r ← lit (chars "if") line
  let r := skipWS r
  let r ← lit (chars "(") r
  let cond := r.takeWhile (fun c => c ≠ ')')
  if cond = [] then none else
  let r ← lit (chars ")") (r.drop cond.length)
  let r := skipWS r
  let r ← lit (chars "then") r
  let r := skipWS r
  let r ← lit (chars "(") r
  let ylab := r.takeWhile (fun c => c ≠ ')')
  let _ ← lit (chars ")") (r.drop ylab.length)
  some (cond, ylab)

/-- `else\s*\(([^)]*)\)` (line 474). -/
def matchElseAct (line : Str) : Option Str := do
  let r ← lit (chars "else") line
  let r := skipWS r
  let r ← lit (chars "(") r
  let nlab := r.takeWhile (fun c => c ≠ ')')
  let _ ← lit (chars ")") (r.drop nlab.length)
  some nlab

/-! ### Sequence-diagram regexes -/

/-- One keyword alternative of the participant pattern. -/
def pKwTry (k line : Str) : Option Str := do
  let r ← lit k line
  ws1 r

/-- `(?:"([^"]+)"|(\S+))` : quoted name, else a non-space token (the
quoted alternative is tried first; on failure the fallback token may
itself contain the quote character). -/
def nameAfter (r : Str) : Option (Str × Str) :=
  match r with
  | '"' :: rest =>
    let q := rest.takeWhile (fun c => c ≠ '"')
    match rest.drop q.length with
    | '"' :: r2 => if q = [] then tokNS r else some (q, r2)
    | _ => tokNS r
  | _ => tokNS r

/-- `(?:\s+as\s+(\S+))?` : the optional alias group. -/
def asOpt (r : Str) : Option Str := do
  let r ← ws1 r
  let r ← lit (chars "as") r
  let r ← ws1 r
  let (al, _) ← tokNS r
  some al

/-- Like `asOpt` but also returning the rest of the line (the use-case
actor pattern has a further optional group after the alias). -/
def asOptR (r : Str) : Option (Str × Str) := do
  let r1 ← ws1 r
  let r2 ← lit (chars "as") r1
  let r3 ← ws1 r2
  tokNS r3

/-- One alternative of
`(participant|actor|database|boundary|control|entity|collections)\s+(?:"([^"]+)"|(\S+))(?:\s+as\s+(\S+))?`
(line 92); returns (keyword, name, optional alias). -/
def pTry (k line : Str) : Option (Str × Str × Option Str) := do
  let r ← pKwTry k line
  let (nm, r) ← nameAfter r
  some (k, nm, asOpt r)

def participantMatch (line : Str) : Option (Str × Str × Option Str) :=
  pTry (chars "participant") line <|> pTry (chars "actor") line <|>
  pTry (chars "database") line <|> pTry (chars "boundary") line <|>
  pTry (chars "control") line <|> pTry (chars "entity") line <|>
  pTry (chars "collections") line

/-- One alternative of `^(alt|opt|loop|par|break|critical)\s+(.*)`
(lines 102-103); returns (keyword, label = rest of line). -/
def fragTry (k line : Str) : Option (Str × Str) := do
  let r ← lit k line
  let r ← ws1 r
  some (k, r)

def fragOpenMatch (line : Str) : Option (Str × Str) :=
  fragTry (chars "alt") line <|> fragTry (chars "opt") line <|>
  fragTry (chars "loop") line <|> fragTry (chars "par") line <|>
  fragTry (chars "break") line <|> fragTry (chars "critical") line

/-- `\s*(\S+)\s*:?\s*(.*)` : tail of the message pattern after the arrow;
returns (target, label).  The greedy `(\S+)` never backtracks here since
the rest of the pattern is all-optional. -/
def msgTail (r : Str) : Option (Str × Str) := do
  let (tg, r2) ← tokNS (skipWS r)
  let r3 := skipWS r2
  let r4 := match r3 with
    | ':' :: t => t
    | _ => r3
  some (tg, skipWS r4)

/-- `(<?-+>>?)` followed by the tail: the optional second `>` is greedy
but backtracks when the tail cannot find a target token. -/
def msgArrowTail (r : Str) : Option (Str × Str × Str) :=
  let (pre, r1) : Str × Str :=
    match r with
    | '<' :: t => (['<'], t)
    | _ => ([], r)
  let ds := r1.takeWhile (fun c => c = '-')
  if ds = [] then none else
  match r1.drop ds.length with
  | '>' :: rest1 =>
    let arrow1 := pre ++ ds ++ ['>']
    match rest1 with
    | '>' :: rest2 =>
      match msgTail rest2 with
      | some (tg, lbl) => some (arrow1 ++ ['>'], tg, lbl)
      | none =>
        match msgTail rest1 with
        | some (tg, lbl) => some (arrow1, tg, lbl)
        | none => none
    | _ =>
      match msgTail rest1 with
      | some (tg, lbl) => some (arrow1, tg, lbl)
      | none => none
  | _ => none

/-- `(\S+)\s*(<?-+>>?)\s*(\S+)\s*:?\s*(.*)` (line 133); returns
(source, arrow, target, label). -/
def msgMatch (line : Str) : Option (Str × Str × Str × Str) :=
  let tok := line.takeWhile (fun c => !isWS c)
  tryG1 tok.length tok (line.drop tok.length) (fun g1 r =>
    match msgArrowTail (skipWS r) with
    | some (a, tg, lbl) => some (g1, a, tg, lbl)
    | none => none)

/-! ### Use-case regexes -/

/-- `rectangle\s+"([^"]+)"` (line 256). -/
def rectMatch (line : Str) : Option Str := do
  let r ← lit (chars "rectangle") line
  let r ← ws1 r
  let r ← lit (chars "\"") r
  let q := r.takeWhile (fun c => c ≠ '"')
  if q = [] then none else
  let _ ← lit (chars "\"") (r.drop q.length)
  some q

/-- Regex `\w` (ASCII fragment). -/
def isWordC (c : Char) : Bool :=
  ('a' ≤ c && c ≤ 'z') || ('A' ≤ c && c ≤ 'Z') || ('0' ≤ c && c ≤ '9') || c = '_'

/-- `(?:\s+<<(\w+)>>)?` : the optional stereotype group of the actor
pattern. -/
def stereoOpt (r : Str) : Option Str := do
  let r ← ws1 r
  let r ← lit (chars "<<") r
  let w := r.takeWhile isWordC
  if w = [] then none else
  let _ ← lit (chars ">>") (r.drop w.length)
  some w

/-- `actor\s+(?:"([^"]+)"|(\S+))(?:\s+as\s+(\S+))?(?:\s+<<(\w+)>>)?`
(line 261); returns (name, optional alias, optional stereotype). -/
def actorMatch (line : Str) : Option (Str × Option Str × Option Str) := do
  let r ← pKwTry (chars "actor") line
  let (nm, r) ← nameAfter r
  match asOptR r with
  | some (al, r2) => some (nm, some al, stereoOpt r2)
  | none => some (nm, none, stereoOpt r)

/-- `usecase\s+(?:"([^"]+)"|(\S+))(?:\s+as\s+(\S+))?` (line 272). -/
def usecaseMatch (line : Str) : Option (Str × Option Str) := do
  let r ← pKwTry (chars "usecase") line
  let (nm, r) ← nameAfter r
  some (nm, asOpt r)

/-- `(?:\s*:\s*(.*))?` : the optional label group closing the relation
patterns; `none` when the colon part is absent. -/
def colonOpt (r : Str) : Option Str := do
  let r ← lit (chars ":") (skipWS r)
  some (skipWS r)

/-- Arrow alternation `(-->|\.\.>|--)` of the use-case relation pattern,
tried in the source's order. -/
def ucArrow (r : Str) : Option (Str × Str) :=
  match lit (chars "-->") r with
  | some t => some (chars "-->", t)
  | none =>
    match lit (chars "..>") r with
    | some t => some (chars "..>", t)
    | none =>
      match lit (chars "--") r with
      | some t => some (chars "--", t)
      | none => none

/-- `(\S+)\s*(-->|\.\.>|--)\s*(\S+)(?:\s*:\s*(.*))?` (line 287); returns
(source, arrow, target, optional label).  The leading `(\S+)` backtracks
from longest to shortest as in Python. -/
def ucRelMatch (line : Str) : Option (Str × Str × Str × Option Str) :=
  let tok := line.takeWhile (fun c => !isWS c)
  tryG1 tok.length tok (line.drop tok.length) (fun g1 r => do
    let (ar, r2) ← ucArrow (skipWS r)
    let (tg, r3) ← tokNS (skipWS r2)
    some (g1, ar, tg, colonOpt r3))

/-! ### Class-diagram regexes -/

/-- One alternative of `(class|interface|abstract\s+class|enum)\s+(\S+)(?:\s+{)?`
(line 171). -/
def declTry (k line : Str) : Option (Str × Str) := do
  let r ← lit k line
  let r ← ws1 r
  let (nm, _) ← tokNS r
  some (k, nm)

/-- The `abstract\s+class` alternative; group 1 is the matched text,
whitespace included. -/
def declTryAbstract (line : Str) : Option (Str × Str) := do
  let r ← lit (chars "abstract") line
  let w := r.takeWhile isWS
  if w = [] then none else
  let r ← lit (chars "class") (r.drop w.length)
  let r ← ws1 r
  let (nm, _) ← tokNS r
  some (chars "abstract" ++ w ++ chars "class", nm)

def classDeclMatch (line : Str) : Option (Str × Str) :=
  declTry (chars "class") line <|> declTry (chars "interface") line <|>
  declTryAbstract line <|> declTry (chars "enum") line

/-- `(?:"[^"]*")?` : the optional multiplicity group of the class relation
pattern; greedy, retried without the quoted part when the continuation
fails (`[^"]*` may be empty). -/
def quotedOpt {α : Type} (r : Str) (k : Str → Option α) : Option α :=
  match r with
  | '"' :: rest =>
    let q := rest.takeWhile (fun c => c ≠ '"')
    match rest.drop q.length with
    | '"' :: r2 =>
      match k r2 with
      | some a => some a
      | none => k r
    | _ => k r
  | _ => k r

/-- `\s*(?:"[^"]*")?\s*(\S+)(?:\s*:\s*(.*))?` : tail of the class relation
pattern after the arrow. -/
def crTail (r : Str) : Option (Str × Option Str) :=
  quotedOpt (skipWS r) (fun r2 => do
    let (tg, r3) ← tokNS (skipWS r2)
    some (tg, colonOpt r3))

def crFinish (arrow r : Str) : Option (Str × Str × Option Str) :=
  match crTail r with
  | some (tg, lb) => some (arrow, tg, lb)
  | none => none

/-- `\|?` after the arrow core (greedy optional with backtracking). -/
def crSlotBar (arrow r : Str) : Option (Str × Str × Option Str) :=
  match r with
  | '|' :: t =>
    match crFinish (arrow ++ ['|']) t with
    | some a => some a
    | none => crFinish arrow r
  | _ => crFinish arrow r

/-- `>?` after the arrow core. -/
def crSlotGt (arrow r : Str) : Option (Str × Str × Option Str) :=
  match r with
  | '>' :: t =>
    match crSlotBar (arrow ++ ['>']) t with
    | some a => some a
    | none => crSlotBar arrow r
  | _ => crSlotBar arrow r

/-- `(?:o|\*)?` after the arrow core. -/
def crSlotO (arrow r : Str) : Option (Str × Str × Option Str) :=
  match r with
  | 'o' :: t =>
    match crSlotGt (arrow ++ ['o']) t with
    | some a => some a
    | none => crSlotGt arrow r
  | '*' :: t =>
    match crSlotGt (arrow ++ ['*']) t with
    | some a => some a
    | none => crSlotGt arrow r
  | _ => crSlotGt arrow r

/-- `(<?\|?(?:--|\.\.)(?:o|\*)?>?\|?)` followed by the tail; the leading
`<?` and `\|?` are deterministic (skipping them cannot help), the suffix
slots backtrack. -/
def crArrow (r : Str) : Option (Str × Str × Option Str) :=
  let (c1, r1) : Str × Str :=
    match r with
    | '<' :: t => (['<'], t)
    | _ => ([], r)
  let (c2, r2) : Str × Str :=
    match r1 with
    | '|' :: t => (c1 ++ ['|'], t)
    | _ => (c1, r1)
  match r2 with
  | '-' :: '-' :: t => crSlotO (c2 ++ chars "--") t
  | '.' :: '.' :: t => crSlotO (c2 ++ chars "..") t
  | _ => none

/-- `(\S+)\s*(?:"[^"]*")?\s*(<?\|?(?:--|\.\.)(?:o|\*)?>?\|?)\s*(?:"[^"]*")?\s*(\S+)(?:\s*:\s*(.*))?`
(line 214); returns (source, arrow, target, optional label). -/
def classRelMatch (line : Str) : Option (Str × Str × Str × Option Str) :=
  let tok := line.takeWhile (fun c => !isWS c)
  tryG1 tok.length tok (line.drop tok.length) (fun g1 r =>
    quotedOpt (skipWS r) (fun r2 =>
      match crArrow (skipWS r2) with
      | some (a, tg, lb) => some (g1, a, tg, lb)
      | none => none))

/-- `^[A-Z_]+$` (line 199): enum member lines. -/
def enumValMatch (line : Str) : Bool :=
  line ≠ [] && line.all (fun c => ('A' ≤ c && c ≤ 'Z') || c = '_')

/-! ### Intermediate models (the dictionaries built by `PlantUMLParser`) -/

structure Participant where
  name : Str
  alias' : Str
  ptype : Str
deriving DecidableEq, Repr

structure Message where
  source : Str
  target : Str
  label : Str
  is_return : Bool
  is_async : Bool
deriving DecidableEq, Repr

structure FragSection where
  label : Str
  start_index : Nat
deriving DecidableEq, Repr

structure Fragment where
  ftype : Str
  label : Str
  start_index : Nat
  sections : List FragSection
  end_index : Option Nat
deriving DecidableEq, Repr

structure SeqModel where
  participants : List Participant
  messages : List Message
  fragments : List Fragment
deriving DecidableEq, Repr

structure UmlClass where
  name : Str
  ctype : Str
  attributes : List Str
  methods : List Str
deriving DecidableEq, Repr

structure ClassRel where
  source : Str
  target : Str
  rtype : Str
  label : Str
deriving DecidableEq, Repr

structure ClassModel where
  classes : List UmlClass
  relations : List ClassRel
deriving DecidableEq, Repr

structure UcActor where
  name : Str
  alias' : Str
  is_secondary : Bool
deriving DecidableEq, Repr

structure UseCaseRec where
  name : Str
  alias' : Str
deriving DecidableEq, Repr

structure UcRel where
  source : Str
  target : Str
  rtype : Str
  label : Str
deriving DecidableEq, Repr

structure UcModel where
  actors : List UcActor
  usecases : List UseCaseRec
  relations : List UcRel
  system_name : Option Str
deriving DecidableEq, Repr

structure Activity where
  id : Str
  name : Str
  atype : Str
  swimlane : Option Str
  /-- Absent from the start/fork/join dictionaries in the source; every
  later read uses `.get` with this default, so the default is stored. -/
  branch_depth : Nat
  branch_side : Str
deriving DecidableEq, Repr

structure Transition where
  source : Str
  target : Str
  label : Str
deriving DecidableEq, Repr

structure ActModel where
  activities : List Activity
  transitions : List Transition
  swimlanes : List Str
deriving DecidableEq, Repr

/-! ### Sequence parser (`_parse_sequence`, lines 82-159) -/

structure SeqSt where
  participants : List Participant
  messages : List Message
  fragments : List Fragment
  fragment_stack : List Fragment
  message_index : Nat
deriving DecidableEq, Repr

def stepSeq (st : SeqSt) (line : Str) : SeqSt :=
  match participantMatch line with
  | some (ptype, name0, aliasOpt) =>
    -- alias defaults to the *unreplaced* name (lines 95-99)
    let al := aliasOpt.getD name0
    let name := replaceNl name0
    { st with participants := st.participants ++ [⟨name, al, ptype⟩] }
  | none =>
  match fragOpenMatch line with
  | some (ft, lbl) =>
    { st with fragment_stack :=
        ⟨ft, lbl, st.message_index, [⟨lbl, st.message_index⟩], none⟩ :: st.fragment_stack }
  | none =>
  if pyStarts (chars "else") line then
    match st.fragment_stack with
    | f :: fs =>
      { st with fragment_stack :=
          { f with sections := f.sections ++ [⟨pyStrip (line.drop 4), st.message_index⟩] } :: fs }
    | [] => st
  else if line = chars "end" then
    match st.fragment_stack with
    | f :: fs =>
      { st with fragment_stack := fs,
                fragments := st.fragments ++ [{ f with end_index := some st.message_index }] }
    | [] => st
  else if isSubstr (chars "->") line && !pyStarts (chars "'") line &&
          !pyStarts (chars "note") line then
    match msgMatch line with
    | some (source, arrow, target, label) =>
      let is_dashed := isSubstr (chars "--") arrow
      let is_async := isSubstr (chars ">>") arrow
      let is_return := is_dashed && !is_async
      { st with messages := st.messages ++ [⟨source, target, pyStrip label, is_return, is_async⟩],
                message_index := st.message_index + 1 }
    | none => st
  else st

def parse_sequence (lines : List Str) : SeqModel :=
  let st := lines.foldl stepSeq ⟨[], [], [], [], 0⟩
  ⟨st.participants, st.messages, st.fragments⟩

/-! ### Class parser (`_parse_class`, lines 161-244) -/

structure ClassSt where
  classes : List UmlClass
  relations : List ClassRel
  current_open : Bool
  in_methods : Bool
deriving DecidableEq, Repr

/-- Python mutates `current_class`, which is always the last-appended
dictionary of `classes`; modelled by updating the last list element. -/
def updLast (f : UmlClass → UmlClass) : List UmlClass → List UmlClass
  | [] => []
  | [c] => [f c]
  | c :: rest => c :: updLast f rest

def lastCtype : List UmlClass → Str
  | [] => []
  | [c] => c.ctype
  | _ :: rest => lastCtype rest

def classRelGate (line : Str) : Bool :=
  [chars "<|--", chars "--|>", chars "..|>", chars "<|..", chars "--",
   chars "o--", chars "*--", chars "--o", chars "--*"].any (fun r => isSubstr r line)

def stepClass (st : ClassSt) (line : Str) : ClassSt :=
  if pyStarts (chars "class ") line || pyStarts (chars "interface ") line ||
     pyStarts (chars "abstract ") line || pyStarts (chars "enum ") line then
    match classDeclMatch line with
    | some (ctype, cname) =>
      { st with classes := st.classes ++ [⟨cname, ctype, [], []⟩],
                current_open := true, in_methods := false }
    | none => st
  else if st.current_open && line ≠ [] && !pyStarts (chars "\x7d") line then
    if line = chars "--" then { st with in_methods := true }
    else if isSubstr (chars "(") line && isSubstr (chars ")") line then
      { st with classes := updLast (fun c => { c with methods := c.methods ++ [line] }) st.classes }
    else if pyStarts (chars "+") line || pyStarts (chars "-") line || pyStarts (chars "#") line then
      if st.in_methods || (isSubstr (chars "(") line && isSubstr (chars ")") line) then
        { st with classes := updLast (fun c => { c with methods := c.methods ++ [line] }) st.classes }
      else
        { st with classes := updLast (fun c => { c with attributes := c.attributes ++ [line] }) st.classes }
    else if lastCtype st.classes = chars "enum" && enumValMatch line then
      { st with classes := updLast (fun c => { c with attributes := c.attributes ++ [line] }) st.classes }
    else st
  else if line = chars "\x7d" then { st with current_open := false, in_methods := false }
  else if !st.current_open && classRelGate line then
    match classRelMatch line with
    | some (source, rel_type, target, labelOpt) =>
      let label := labelOpt.getD []
      let rtype :=
        if isSubstr (chars "<|--") rel_type || isSubstr (chars "--|>") rel_type then chars "inheritance"
        else if isSubstr (chars "<|..") rel_type || isSubstr (chars "..|>") rel_type then chars "implementation"
        else if isSubstr (chars "o--") rel_type || isSubstr (chars "--o") rel_type then chars "aggregation"
        else if isSubstr (chars "*--") rel_type || isSubstr (chars "--*") rel_type then chars "composition"
        else chars "association"
      { st with relations := st.relations ++ [⟨source, target, rtype, label⟩] }
    | none => st
  else st

def parse_class (lines : List Str) : ClassModel :=
  let st := lines.foldl stepClass ⟨[], [], false, false⟩
  ⟨st.classes, st.relations⟩

/-! ### Use-case parser (`_parse_usecase`, lines 246-311) -/

structure UcSt where
  actors : List UcActor
  usecases : List UseCaseRec
  relations : List UcRel
  system_name : Option Str
deriving DecidableEq, Repr

def ucRelGate (line : Str) : Bool :=
  isSubstr (chars "-->") line || isSubstr (chars "..|>") line || isSubstr (chars "--") line

def stepUc (st0 : UcSt) (line : Str) : UcSt :=
  -- independent `if` for the system rectangle (line 255); the same line
  -- then continues into the actor/usecase/relation chain (line 260)
  let st := if pyStarts (chars "rectangle ") line then
      match rectMatch line with
      | some nm => { st0 with system_name := some nm }
      | none => st0
    else st0
  if pyStarts (chars "actor ") line then
    match actorMatch line with
    | some (name, aliasOpt, stereo) =>
      let al := aliasOpt.getD name
      let is_secondary := stereo = some (chars "secondary")
      { st with actors := st.actors ++ [⟨name, al, is_secondary⟩] }
    | none => st
  else if pyStarts (chars "usecase ") line ||
          (pyStarts (chars "(") line && pyEndsChar ')' line) then
    if pyStarts (chars "usecase ") line then
      match usecaseMatch line with
      | some (name0, aliasOpt) =>
        let name := replaceNl name0
        let al := aliasOpt.getD name
        { st with usecases := st.usecases ++ [⟨name, al⟩] }
      | none => st
    else
      let name := replaceNl (pyStripChars (chars "()") line)
      { st with usecases := st.usecases ++ [⟨name, name⟩] }
  else if ucRelGate line then
    match ucRelMatch line with
    | some (source, rel_type, target, labelOpt) =>
      let label := labelOpt.getD []
      let rtype :=
        if isSubstr (chars "..|>") rel_type || isSubstr (chars "..>") rel_type then
          (if isSubstr (chars "extend") (pyLower label) then chars "extends" else chars "include")
        else chars "association"
      { st with relations := st.relations ++ [⟨source, target, rtype, label⟩] }
    | none => st
  else st

def parse_usecase (lines : List Str) : UcModel :=
  let st := lines.foldl stepUc ⟨[], [], [], none⟩
  ⟨st.actors, st.usecases, st.relations, st.system_name⟩

/-! ### Activity parser (`_parse_activity`, lines 313-590) -/

structure Decision where
  id : Str
  yes_label : Str
  no_label : Str
  first_branch_end : Option Str
  in_else : Bool
  depth : Nat
  first_transition_done : Bool
deriving DecidableEq, Repr

structure ForkFrame where
  id : Str
  branches : List (Option Str)
deriving DecidableEq, Repr

structure ASt where
  activities : List Activity
  transitions : List Transition
  swimlanes : List Str
  current_swimlane : Option Str
  /-- Head is Python's `prev_stack[-1]`. -/
  prev_stack : List (Option Str)
  decision_stack : List Decision
  fork_stack : List ForkFrame
  activity_id : Nat
  fork_id : Nat
  stop_id : Nat
  multiline : Option Str
deriving DecidableEq, Repr

def actId (k : Nat) : Str := chars "act_" ++ natStr k
def decId (k : Nat) : Str := chars "dec_" ++ natStr k
def mergeId (k : Nat) : Str := chars "merge_" ++ natStr k
def forkId (k : Nat) : Str := chars "fork_" ++ natStr k
def joinId (k : Nat) : Str := chars "join_" ++ natStr k
def stopId (k : Nat) : Str := chars "stop_" ++ natStr k

/-- "oui = centre, non = droite" (lines 382-384, 408-411). -/
def branchSide (ds : List Decision) : Str :=
  match ds with
  | d :: _ => if d.in_else then chars "right" else chars "center"
  | [] => chars "center"

/-- Swim-lane lines (354-363). -/
def handleSwimlane (st : ASt) (line : Str) : ASt :=
  let swimlane_name := pyStrip (pyStripChars (chars "|") line)
  if isSubstr (chars "|") swimlane_name then st
  else
    let sw := if swimlane_name ≠ [] && !(st.swimlanes.contains swimlane_name) then
        st.swimlanes ++ [swimlane_name]
      else st.swimlanes
    { st with swimlanes := sw, current_swimlane := some swimlane_name }

/-- `start` (366-374). -/
def handleStart (st : ASt) : ASt :=
  match st.prev_stack with
  | _ :: rest =>
    let acts := st.activities ++
      [⟨chars "start", [], chars "start", st.current_swimlane, 0, chars "center"⟩]
    { st with activities := acts, prev_stack := some (chars "start") :: rest }
  | [] => st

/-- `stop` (377-400). -/
def handleStop (st : ASt) : ASt :=
  match st.prev_stack with
  | p :: rest =>
    let stop_name := stopId st.stop_id
    let acts := st.activities ++
      [⟨stop_name, [], chars "end", st.current_swimlane, st.decision_stack.length,
        branchSide st.decision_stack⟩]
    let trans := match p with
      | some pv => st.transitions ++ [⟨pv, stop_name, []⟩]
      | none => st.transitions
    { st with activities := acts, transitions := trans,
              stop_id := st.stop_id + 1, prev_stack := none :: rest }
  | [] => st

/-- A `:...;` activity line (403-436). -/
def handleActivity (st : ASt) (line : Str) : ASt :=
  match st.prev_stack with
  | p :: rest =>
    let activity_name := pyStrip (pyStripChars (chars ":;") line)
    let act_id := actId st.activity_id
    let acts := st.activities ++
      [⟨act_id, activity_name, chars "activity", st.current_swimlane,
        st.decision_stack.length, branchSide st.decision_stack⟩]
    match p with
    | some pv =>
      let tl : Str × List Decision :=
        match st.decision_stack with
        | d :: ds =>
          if pv = d.id then
            if d.in_else then (d.no_label, d :: ds)
            else if !d.first_transition_done then
              (d.yes_label, { d with first_transition_done := true } :: ds)
            else ([], d :: ds)
          else ([], d :: ds)
        | [] => ([], [])
      { st with activities := acts,
                transitions := st.transitions ++ [⟨pv, act_id, tl.1⟩],
                prev_stack := some act_id :: rest,
                activity_id := st.activity_id + 1,
                decision_stack := tl.2 }
    | none =>
      { st with activities := acts, prev_stack := some act_id :: rest,
                activity_id := st.activity_id + 1 }
  | [] => st

/-- `if (...) then (...)` (439-471). -/
def handleIf (st : ASt) (condition ylab : Str) : ASt :=
  match st.prev_stack with
  | p :: rest =>
    let yes_label := if ylab = [] then chars "oui" else ylab
    let dec_id := decId st.activity_id
    let depth := st.decision_stack.length
    let acts := st.activities ++
      [⟨dec_id, condition, chars "decision", st.current_swimlane, depth, chars "center"⟩]
    let trans := match p with
      | some pv => st.transitions ++ [⟨pv, dec_id, []⟩]
      | none => st.transitions
    { st with activities := acts, transitions := trans,
              decision_stack := ⟨dec_id, yes_label, chars "non", none, false, depth, false⟩ :: st.decision_stack,
              prev_stack := some dec_id :: p :: rest,
              activity_id := st.activity_id + 1 }
  | [] => st

/-- `else (...)` (474-482); with an empty decision stack the Python
condition fails and the line falls through every later check, so the
state is unchanged either way. -/
def handleElse (st : ASt) (nlab : Str) : ASt :=
  match st.decision_stack with
  | d :: ds =>
    match st.prev_stack with
    | p :: rest =>
      let no_label := if nlab = [] then chars "non" else nlab
      let d' := { d with no_label := no_label, first_branch_end := p,
                         in_else := true, first_transition_done := false }
      { st with decision_stack := d' :: ds, prev_stack := some d.id :: rest }
    | [] => st
  | [] => st

/-- `endif` (485-527); ignored when no decision is open. -/
def handleEndif (st : ASt) : ASt :=
  match st.decision_stack with
  | d :: ds =>
    match st.prev_stack with
    | p :: rest =>
      let has_yes := d.first_branch_end ≠ none
      let has_no := p ≠ none && p ≠ some d.id
      if has_yes || has_no then
        let merge_id := mergeId st.activity_id
        let acts := st.activities ++
          [⟨merge_id, [], chars "merge", st.current_swimlane, d.depth, chars "center"⟩]
        let t1 : List Transition := match d.first_branch_end with
          | some fbe => [⟨fbe, merge_id, []⟩]
          | none => []
        let t2 : List Transition :=
          if has_no then
            match p with
            | some pv => [⟨pv, merge_id, []⟩]
            | none => []
          else if p = some d.id then [⟨d.id, merge_id, d.no_label⟩]
          else []
        { st with activities := acts,
                  transitions := st.transitions ++ t1 ++ t2,
                  decision_stack := ds,
                  activity_id := st.activity_id + 1,
                  prev_stack := match rest with
                    | _ :: r2 => some merge_id :: r2
                    | [] => [] }
      else
        { st with decision_stack := ds, prev_stack := rest }
    | [] => st
  | [] => st

/-- `fork` (530-550). -/
def handleFork (st : ASt) : ASt :=
  match st.prev_stack with
  | p :: rest =>
    let fork_name := forkId st.fork_id
    let acts := st.activities ++
      [⟨fork_name, [], chars "fork", st.current_swimlane, 0, chars "center"⟩]
    let trans := match p with
      | some pv => st.transitions ++ [⟨pv, fork_name, []⟩]
      | none => st.transitions
    { st with activities := acts, transitions := trans,
              fork_id := st.fork_id + 1,
              fork_stack := ⟨fork_name, []⟩ :: st.fork_stack,
              prev_stack := some fork_name :: rest }
  | [] => st

/-- `fork again` (553-558); ignored when no fork is open. -/
def handleForkAgain (st : ASt) : ASt :=
  match st.fork_stack, st.prev_stack with
  | f :: fs, p :: rest =>
    { st with fork_stack := { f with branches := f.branches ++ [p] } :: fs,
              prev_stack := some f.id :: rest }
  | _, _ => st

/-- `end fork` (561-583); ignored when no fork is open. -/
def handleEndFork (st : ASt) : ASt :=
  match st.fork_stack, st.prev_stack with
  | f :: fs, p :: rest =>
    let branches := f.branches ++ [p]
    let join_name := joinId st.fork_id
    let acts := st.activities ++
      [⟨join_name, [], chars "join", st.current_swimlane, 0, chars "center"⟩]
    let newTrans := branches.filterMap (fun b =>
      match b with
      | some bv => some (⟨bv, join_name, []⟩ : Transition)
      | none => none)
    { st with activities := acts, transitions := st.transitions ++ newTrans,
              fork_stack := fs, fork_id := st.fork_id + 1,
              prev_stack := some join_name :: rest }
  | _, _ => st

/-- Body of the parsing loop from the swim-lane check on (lines 354-583);
entered with the multi-line accumulator resolved.  Branches reading
`prev_stack[-1]` pattern-match on the stack; the empty-stack cases
(where Python would fault) are unreachable — `prev_stack` always has
`decision_stack.length + 1` elements, proved below. -/
def stepActLine (st : ASt) (line : Str) : ASt :=
  if pyStarts (chars "|") line && pyEndsChar '|' line then handleSwimlane st line
  else if line = chars "start" then handleStart st
  else if line = chars "stop" then handleStop st
  else if pyStarts (chars ":") line && pyEndsChar ';' line then handleActivity st line
  else
  match matchIfThen line with
  | some (condition, ylab) => handleIf st condition ylab
  | none =>
  match matchElseAct line with
  | some nlab => handleElse st nlab
  | none =>
  if line = chars "endif" then handleEndif st
  else if line = chars "fork" then handleFork st
  else if line = chars "fork again" then handleForkAgain st
  else if line = chars "end fork" then handleEndFork st
  else st

/-- One loop iteration (lines 332-352 then the rest). -/
def stepAct (st : ASt) (line : Str) : ASt :=
  if line = [] || pyStarts (chars "'") line || pyStarts (chars "note") line ||
     pyStarts (chars "end note") line then st
  else if pyStarts (chars "legend") line || pyStarts (chars "endlegend") line then st
  else if pyStarts (chars ":") line && !pyEndsChar ';' line then
    { st with multiline := some (line.drop 1) }
  else
    match st.multiline with
    | some acc =>
      if pyEndsChar ';' line then
        stepActLine { st with multiline := none }
          (':' :: (acc ++ ' ' :: line.dropLast) ++ [';'])
      else { st with multiline := some (acc ++ ' ' :: line) }
    | none => stepActLine st line

def actInit : ASt := ⟨[], [], [], none, [some (chars "start")], [], [], 0, 0, 0, none⟩

def parseActivitySt (lines : List Str) : ASt := lines.foldl stepAct actInit

def parse_activity (lines : List Str) : ActModel :=
  let st := parseActivitySt lines
  ⟨st.activities, st.transitions, st.swimlanes⟩

/-! ### Classifier and parse dispatch (`_detect_diagram_type`, `parse`) -/

inductive DiagramType
  | SEQUENCE | CLASS | USECASE | ACTIVITY | COMPONENT | STATE | UNKNOWN
deriving DecidableEq, Repr

def detect_diagram_type (content : Str) : DiagramType :=
  let cl := pyLower content
  if !isSubstr (chars "@startuml") cl then .UNKNOWN
  else if isSubstr (chars "usecase") cl then .USECASE
  else if [chars "class ", chars "interface ", chars "abstract class",
           chars "extends", chars "implements"].any (fun k => isSubstr k cl) then .CLASS
  else if isSubstr (chars "participant") cl ||
          (isSubstr (chars "actor") cl && isSubstr (chars "->") cl) then .SEQUENCE
  else if (splitNl cl).any (fun line =>
      pyStrip line = chars "start" || pyStrip line = chars "stop" ||
      pyStarts (chars "start ") (pyStrip line) || pyStarts (chars "stop ") (pyStrip line)) then .ACTIVITY
  else if isSubstr (chars "state ") cl || isSubstr (chars "[*]") cl then .STATE
  else if [chars "component", chars "package", chars "node"].any (fun k => isSubstr k cl) then .COMPONENT
  else if [chars "->", chars "<-", chars "activate", chars "deactivate"].any
      (fun k => isSubstr k cl) then .SEQUENCE
  else .UNKNOWN

def dtStr : DiagramType → Str
  | .SEQUENCE => chars "DiagramType.SEQUENCE"
  | .CLASS => chars "DiagramType.CLASS"
  | .USECASE => chars "DiagramType.USECASE"
  | .ACTIVITY => chars "DiagramType.ACTIVITY"
  | .COMPONENT => chars "DiagramType.COMPONENT"
  | .STATE => chars "DiagramType.STATE"
  | .UNKNOWN => chars "DiagramType.UNKNOWN"

inductive ParsedModel
  | seq (m : SeqModel)
  | cls (m : ClassModel)
  | uc (m : UcModel)
  | act (m : ActModel)
deriving DecidableEq, Repr

/-- `self.lines` of the parser: split on newlines, each line stripped. -/
def contentLines (content : Str) : List Str := (splitNl content).map pyStrip

/-- `PlantUMLParser.parse` (lines 69-80): the unsupported kinds raise
`ValueError`, modelled as `Except.error` with the message text. -/
def parsePlant (content : Str) : Except Str ParsedModel :=
  let lines := contentLines content
  match detect_diagram_type content with
  | .SEQUENCE => .ok (.seq (parse_sequence lines))
  | .CLASS => .ok (.cls (parse_class lines))
  | .USECASE => .ok (.uc (parse_usecase lines))
  | .ACTIVITY => .ok (.act (parse_activity lines))
  | dt => .error (chars "Type de diagramme non supporté: " ++ dtStr dt)

/-! ### Emission primitives (`DrawIOGenerator`, lines 593-748)

A document is the list of emitted vertex cells and edge cells; the
constant `mxfile` skeleton (cells "0" and "1") carries no content and is
not modelled.  `cid` threads Python's `self.cell_id` (2 on construction
in the source; kept as a parameter so numbering properties can be
stated). -/

structure PNode where
  id : Str
  value : Str
  style : Str
  x : Int
  y : Int
  w : Int
  h : Int
deriving DecidableEq, Repr

inductive EdgeEnds
  | byId (source target : Str)
  | byPoints (sx sy tx ty : Int)
deriving DecidableEq, Repr

structure PEdge where
  id : Str
  value : Str
  style : Str
  ends : EdgeEnds
deriving DecidableEq, Repr

structure Doc where
  nodes : List PNode
  edges : List PEdge
deriving DecidableEq, Repr

def elemId (c : Nat) : Str := chars "elem_" ++ natStr c
def arrowId (c : Nat) : Str := chars "arrow_" ++ natStr c
def lifelineId (c : Nat) : Str := chars "lifeline_" ++ natStr c
def fragmentId (c : Nat) : Str := chars "fragment_" ++ natStr c
def labelId (c : Nat) : Str := chars "label_" ++ natStr c
def sepId (c : Nat) : Str := chars "sep_" ++ natStr c
def sectionLabelId (c : Nat) : Str := chars "section_label_" ++ natStr c
def classCellId (c : Nat) : Str := chars "class_" ++ natStr c

/-- `add_rectangle` / `add_ellipse` (the two differ only in the style the
caller passes): emit one vertex cell, return it with its id and the
advanced counter. -/
def add_rectangle (c : Nat) (label : Str) (x y w h : Int) (style : Str) :
    PNode × Str × Nat :=
  let eid := elemId c
  (⟨eid, label, style, x, y, w, h⟩, eid, c + 1)

def styleActor : Str := chars "shape=umlActor;verticalLabelPosition=bottom;verticalAlign=top;html=1;"

/-- `add_actor` (line 650). -/
def add_actor (c : Nat) (label : Str) (x y : Int) : PNode × Str × Nat :=
  add_rectangle c label x y 30 60 styleActor

def arrowPre : Str := chars "edgeStyle=orthogonalEdgeStyle;rounded=0;html=1;"

/-- `add_arrow` (line 667): edge referencing emitted cell ids. -/
def add_arrow (c : Nat) (sourceId targetId : Str) (label : Str) (style : Str) :
    PEdge × Nat :=
  (⟨arrowId c, label, arrowPre ++ style, .byId sourceId targetId⟩, c + 1)

/-- `add_arrow_with_points` (line 682). -/
def add_arrow_with_points (c : Nat) (label : Str) (sx sy tx ty : Int) (style : Str) :
    PEdge × Nat :=
  (⟨arrowId c, label, arrowPre ++ style, .byPoints sx sy tx ty⟩, c + 1)

/-- Python dict read `d.get(k)`; the association lists are ordered with
the most recent assignment first, so the first match is Python's
last-write-wins value. -/
def dget {α : Type} (m : List (Str × α)) (k : Str) : Option α :=
  (m.find? (fun e => e.1 = k)).map (fun e => e.2)

def listMin : List Int → Int
  | [] => 0
  | x :: xs => xs.foldl min x

def listMax : List Int → Int
  | [] => 0
  | x :: xs => xs.foldl max x

/-! ### Sequence generator (`generate_sequence_diagram`, lines 750-869) -/

def styleDb : Str := chars "shape=cylinder3;whiteSpace=wrap;html=1;boundedLbl=1;backgroundOutline=1;size=15;fillColor=#dae8fc;strokeColor=#6c8ebf;"
def stylePartBox : Str := chars "rounded=0;whiteSpace=wrap;html=1;fillColor=#dae8fc;strokeColor=#6c8ebf;"
def styleLifeline : Str := chars "endArrow=none;dashed=1;html=1;dashPattern=1 4;strokeWidth=1;strokeColor=#666666;"
def styleFragBox : Str := chars "rounded=0;whiteSpace=wrap;html=1;fillColor=none;strokeColor=#666666;dashed=0;verticalAlign=top;align=left;spacingLeft=5;spacingTop=2;"
def styleFragLabel : Str := chars "rounded=0;whiteSpace=wrap;html=1;fillColor=#f5f5f5;strokeColor=#666666;fontStyle=1;fontSize=10;"
def styleSep : Str := chars "endArrow=none;dashed=1;html=1;dashPattern=8 8;strokeColor=#666666;"
def styleSecLabel : Str := chars "text;html=1;strokeColor=none;fillColor=none;align=left;verticalAlign=middle;fontSize=10;"
def styleMsgReturn : Str := chars "dashed=1;html=1;endArrow=open;endFill=0;strokeColor=#666666;"
def styleMsgAsync : Str := chars "html=1;endArrow=async;endFill=0;"
def styleMsgSync : Str := chars "html=1;endArrow=block;endFill=1;"

def insertName (acc : List Str) (n : Str) : List Str :=
  if acc.contains n then acc else acc ++ [n]

/-- Names collected into the Python `set` of lines 760-763, in insertion
order.  (CPython iterates a `str` set in a process-deterministic hash
order; the embedding fixes the insertion order.  Either order is the same
on the two runs of a comparison, which is all the properties below use.) -/
def inferredNames (msgs : List Message) : List Str :=
  msgs.foldl (fun acc m => insertName (insertName acc m.source) m.target) []

def inferParticipants (msgs : List Message) : List Participant :=
  (inferredNames msgs).map (fun n => ⟨n, n, chars "participant"⟩)

/-- Participant placement loop (lines 782-814): returns the advanced
counter, vertex cells, lifeline edges, the `participant_positions`
dictionary (most recent first) and `participant_x_positions`. -/
def seqPartsLoop (c : Nat) (i : Nat) (lifelineEnd : Int) :
    List Participant → Nat × List PNode × List PEdge × List (Str × Int × Int) × List Int
  | [] => (c, [], [], [], [])
  | p :: ps =>
    let x : Int := 50 + 200 * (i : Int)
    let centerX : Int := x + 70
    let r : PNode × Str × Nat × Int :=
      if p.ptype = chars "actor" then
        let (nd, eid, c') := add_actor c p.name (x + 70 - 15) 50
        (nd, eid, c', 110)
      else if p.ptype = chars "database" then
        let (nd, eid, c') := add_rectangle c p.name x 50 140 60 styleDb
        (nd, eid, c', 110)
      else
        let (nd, eid, c') := add_rectangle c p.name x 50 140 50 stylePartBox
        (nd, eid, c', 100)
    let (nd, _, c1, topY) := r
    let lifeline : PEdge :=
      ⟨lifelineId c1, [], styleLifeline, .byPoints centerX topY centerX lifelineEnd⟩
    let (c2, nds, eds, pos, xs) := seqPartsLoop (c1 + 1) (i + 1) lifelineEnd ps
    (c2, nd :: nds, lifeline :: eds, pos ++ [(p.alias', centerX, topY)], centerX :: xs)

/-- `message_y_positions` (lines 817-821). -/
def msgYsAux (y : Int) : Nat → List Int
  | 0 => []
  | n + 1 => y :: msgYsAux (y + 50) n

def msgYs (n : Nat) : List Int := msgYsAux 180 n

/-- Section separators and labels of `add_fragment` (lines 724-746);
`i` is the `enumerate(…, 1)` index into `y_positions`. -/
def fragSecsLoop (c : Nat) (i : Nat) (x w : Int) (ys : List Int) :
    List FragSection → Nat × List PNode × List PEdge
  | [] => (c, [], [])
  | s :: ss =>
    if i < ys.length then
      let sy := ys.getD i 0
      let sep : PEdge := ⟨sepId c, [], styleSep, .byPoints x sy (x + w) sy⟩
      if s.label ≠ [] then
        let lab : PNode :=
          ⟨sectionLabelId (c + 1), '[' :: s.label ++ [']'], styleSecLabel, x + 5, sy + 2, 150, 20⟩
        let (c', nds, eds) := fragSecsLoop (c + 2) (i + 1) x w ys ss
        (c', lab :: nds, sep :: eds)
      else
        let (c', nds, eds) := fragSecsLoop (c + 1) (i + 1) x w ys ss
        (c', nds, sep :: eds)
    else
      fragSecsLoop c (i + 1) x w ys ss

/-- `add_fragment` (lines 701-748). -/
def add_fragment (c : Nat) (ftype : Str) (x y w h : Int)
    (sections : List FragSection) (ys : List Int) : Nat × List PNode × List PEdge :=
  let box : PNode := ⟨fragmentId c, chars "<b>" ++ ftype ++ chars "</b>", styleFragBox, x, y, w, h⟩
  let lab : PNode := ⟨labelId (c + 1), ftype, styleFragLabel, x, y, 40, 20⟩
  let (c', nds, eds) := fragSecsLoop (c + 2) 1 x w ys (sections.drop 1)
  (c', box :: lab :: nds, eds)

/-- Fragment loop of the sequence generator (lines 828-846).  A committed
fragment always carries its `end_index` (set on `end`); `getD 0` is the
unreachable `none` default. -/
def seqFragsLoop (c : Nat) (fx fw : Int) (ys : List Int) (n : Nat) :
    List Fragment → Nat × List PNode × List PEdge
  | [] => (c, [], [])
  | f :: fs =>
    if f.start_index < n then
      let fragY := ys.getD f.start_index 0 - 25
      let endIdx := f.end_index.getD 0
      let fragH : Int :=
        if endIdx < n then ys.getD endIdx 0 - fragY + 25
        else ((n - f.start_index : Nat) : Int) * 50 + 25
      let sectionYs : List Int :=
        fragY :: (f.sections.drop 1).filterMap (fun s =>
          if s.start_index < n then some (ys.getD s.start_index 0 - 10) else none)
      let (c1, nds1, eds1) := add_fragment c f.ftype fx fragY fw fragH f.sections sectionYs
      let (c2, nds2, eds2) := seqFragsLoop c1 fx fw ys n fs
      (c2, nds1 ++ nds2, eds1 ++ eds2)
    else seqFragsLoop c fx fw ys n fs

/-- Message loop (lines 849-867). -/
def seqMsgsLoop (c : Nat) (i : Nat) (pos : List (Str × Int × Int)) (ys : List Int) :
    List Message → Nat × List PEdge
  | [] => (c, [])
  | m :: ms =>
    match dget pos m.source, dget pos m.target with
    | some (sx, _), some (tx, _) =>
      let y := ys.getD i 0
      let style :=
        if m.is_return then styleMsgReturn
        else if m.is_async then styleMsgAsync
        else styleMsgSync
      let (e, c1) := add_arrow_with_points c m.label sx y tx y style
      let (c2, eds) := seqMsgsLoop c1 (i + 1) pos ys ms
      (c2, e :: eds)
    | _, _ => seqMsgsLoop c (i + 1) pos ys ms

def generate_sequence_diagram (data : SeqModel) (c0 : Nat) : Doc :=
  let participants :=
    if data.participants = [] then inferParticipants data.messages else data.participants
  let n := data.messages.length
  let lifelineEnd : Int := 180 + 50 * (n : Int) + 50
  let (c1, pnodes, pedges, pos, xs) := seqPartsLoop c0 0 lifelineEnd participants
  let ys := msgYs n
  let fr : Nat × List PNode × List PEdge :=
    if xs ≠ [] then
      seqFragsLoop c1 (listMin xs - 60) (listMax xs - listMin xs + 120) ys n data.fragments
    else (c1, [], [])
  let (c2, fnodes, fedges) := fr
  let (_, medges) := seqMsgsLoop c2 0 pos ys data.messages
  ⟨pnodes ++ fnodes, pedges ++ fedges ++ medges⟩

/-! ### Class generator (`add_class_box`, `generate_class_diagram`,
lines 871-996) -/

def htmlP (mid s : Str) : Str :=
  chars "<p style=\"" ++ mid ++ chars "\">" ++ s ++ chars "</p>"

/-- `add_class_box` (lines 871-948). -/
def add_class_box (c : Nat) (cls : UmlClass) (x y : Int) : PNode × Str × Nat :=
  let m0 := cls.name.length
  let m1 := cls.attributes.foldl (fun acc a => max acc a.length) m0
  let m2 := cls.methods.foldl (fun acc a => max acc a.length) m1
  let width : Int := max 160 (min 320 ((m2 : Int) * 7 + 20))
  let titleLines : Int := if cls.ctype = chars "interface" || cls.ctype = chars "enum" then 2 else 1
  let titleHeight := titleLines * 20 + 10
  let attrHeight : Int := max 20 ((cls.attributes.length : Int) * 18 + 10)
  let methodHeight : Int := max 20 ((cls.methods.length : Int) * 18 + 10)
  let totalHeight := titleHeight + attrHeight + methodHeight
  let cid := classCellId c
  let boldName := htmlP (chars "margin:0px;text-align:center;") (chars "<b>" ++ cls.name ++ chars "</b>")
  let tfs : Str × Str × Str :=
    if cls.ctype = chars "interface" then
      (htmlP (chars "margin:0px;text-align:center;") (chars "<i>&lt;&lt;interface&gt;&gt;</i>") ++ boldName,
       chars "#fff2cc", chars "#d6b656")
    else if cls.ctype = chars "enum" then
      (htmlP (chars "margin:0px;text-align:center;") (chars "&lt;&lt;enumeration&gt;&gt;") ++ boldName,
       chars "#e1d5e7", chars "#9673a6")
    else (boldName, chars "#dae8fc", chars "#6c8ebf")
  let (title, fill, stroke) := tfs
  let hr := chars "<hr size=\"1\"/>"
  let nbsp := htmlP (chars "margin:0px;") (chars "&nbsp;")
  let attrsHtml :=
    if cls.attributes ≠ [] then
      (cls.attributes.map (fun a => htmlP (chars "margin:0px;margin-left:4px;") a)).flatten
    else nbsp
  let methodsHtml :=
    if cls.methods ≠ [] then
      (cls.methods.map (fun a => htmlP (chars "margin:0px;margin-left:4px;") a)).flatten
    else nbsp
  let html := title ++ hr ++ attrsHtml ++ hr ++ methodsHtml
  let style := chars "verticalAlign=top;align=left;overflow=fill;html=1;rounded=0;shadow=0;comic=0;labelBackgroundColor=none;strokeColor=" ++
    stroke ++ chars ";strokeWidth=1;fillColor=" ++ fill ++ chars ";"
  (⟨cid, html, style, x, y, width, totalHeight⟩, cid, c + 1)

/-- Grid placement loop (lines 966-974); returns the `class_positions`
dictionary, most recent assignment first. -/
def classBoxesLoop (c : Nat) (i : Nat) :
    List UmlClass → Nat × List PNode × List (Str × Str)
  | [] => (c, [], [])
  | cls :: rest =>
    let col : Int := ((i % 3 : Nat) : Int)
    let row : Int := ((i / 3 : Nat) : Int)
    let x := 50 + col * 320
    let y := 50 + row * 250
    let (nd, eid, c1) := add_class_box c cls x y
    let (c2, nds, posm) := classBoxesLoop c1 (i + 1) rest
    (c2, nd :: nds, posm ++ [(cls.name, eid)])

def classRelStyle (rtype : Str) : Str :=
  if rtype = chars "inheritance" then chars "endArrow=block;endFill=0;endSize=12;"
  else if rtype = chars "implementation" then chars "dashed=1;endArrow=block;endFill=0;endSize=12;"
  else if rtype = chars "composition" then chars "endArrow=diamondThin;endFill=1;endSize=12;"
  else if rtype = chars "aggregation" then chars "endArrow=diamondThin;endFill=0;endSize=12;"
  else chars "endArrow=none;endFill=0;"

/-- Relation loop (lines 977-994): relations whose endpoints do not both
resolve in `class_positions` are skipped silently. -/
def classRelsLoop (c : Nat) (posm : List (Str × Str)) :
    List ClassRel → Nat × List PEdge
  | [] => (c, [])
  | rel :: rest =>
    match dget posm rel.source, dget posm rel.target with
    | some sid, some tid =>
      let (e, c1) := add_arrow c sid tid rel.label (classRelStyle rel.rtype)
      let (c2, eds) := classRelsLoop c1 posm rest
      (c2, e :: eds)
    | _, _ => classRelsLoop c posm rest

def generate_class_diagram (data : ClassModel) (c0 : Nat) : Doc :=
  let (c1, nds, posm) := classBoxesLoop c0 0 data.classes
  let (_, eds) := classRelsLoop c1 posm data.relations
  ⟨nds, eds⟩

/-! ### Use-case generator (`generate_usecase_diagram`, lines 998-1064) -/

def styleSystem : Str := chars "rounded=0;whiteSpace=wrap;html=1;fillColor=none;strokeColor=#000000;verticalAlign=top;fontStyle=1;"
def styleSecFrame : Str := chars "rounded=0;whiteSpace=wrap;html=1;fillColor=none;strokeColor=#666666;strokeWidth=1;"
def styleUcEllipse : Str := chars "ellipse;whiteSpace=wrap;html=1;fillColor=#d5e8d4;strokeColor=#82b366;"
def styleUcDashed : Str := chars "dashed=1;endArrow=open;endFill=0;"
def styleUcPlain : Str := chars "endArrow=none;endFill=0;"

def ucPrimLoop (c : Nat) (i : Nat) : List UcActor → Nat × List PNode × List (Str × Str)
  | [] => (c, [], [])
  | a :: rest =>
    let y : Int := 100 + 90 * (i : Int)
    let (nd, eid, c1) := add_actor c a.name 50 y
    let (c2, nds, ids) := ucPrimLoop c1 (i + 1) rest
    (c2, nd :: nds, ids ++ [(a.alias', eid)])

/-- `add_secondary_actor` (lines 655-665): a frame rectangle, then the
actor glyph inside it (whose id is recorded). -/
def ucSecLoop (c : Nat) (i : Nat) : List UcActor → Nat × List PNode × List (Str × Str)
  | [] => (c, [], [])
  | a :: rest =>
    let y : Int := 100 + 90 * (i : Int)
    let (frame, _, c1) := add_rectangle c [] 440 y 50 80 styleSecFrame
    let (nd, eid, c2) := add_rectangle c1 a.name 450 (y + 10) 30 60 styleActor
    let (c3, nds, ids) := ucSecLoop c2 (i + 1) rest
    (c3, frame :: nd :: nds, ids ++ [(a.alias', eid)])

def ucCaseLoop (c : Nat) (i : Nat) : List UseCaseRec → Nat × List PNode × List (Str × Str)
  | [] => (c, [], [])
  | u :: rest =>
    let y : Int := 100 + 90 * (i : Int)
    let (nd, eid, c1) := add_rectangle c u.name 250 y 140 70 styleUcEllipse
    let (c2, nds, ids) := ucCaseLoop c1 (i + 1) rest
    (c2, nd :: nds, ids ++ [(u.alias', eid)])

def ucRelsLoop (c : Nat) (ids : List (Str × Str)) : List UcRel → Nat × List PEdge
  | [] => (c, [])
  | rel :: rest =>
    match dget ids rel.source, dget ids rel.target with
    | some sid, some tid =>
      let sl : Str × Str :=
        if rel.rtype = chars "extends" || rel.rtype = chars "include" then
          (styleUcDashed, chars "<<" ++ rel.rtype ++ chars ">>")
        else (styleUcPlain, rel.label)
      let (e, c1) := add_arrow c sid tid sl.2 sl.1
      let (c2, eds) := ucRelsLoop c1 ids rest
      (c2, e :: eds)
    | _, _ => ucRelsLoop c ids rest

def generate_usecase_diagram (data : UcModel) (c0 : Nat) : Doc :=
  let primary := data.actors.filter (fun a => !a.is_secondary)
  let secondary := data.actors.filter (fun a => a.is_secondary)
  let sys : Nat × List PNode :=
    match data.system_name with
    | some nm =>
      if nm ≠ [] && data.usecases ≠ [] then
        let h : Int := (data.usecases.length : Int) * 90 + 50
        let (nd, _, c1) := add_rectangle c0 nm 220 50 200 h styleSystem
        (c1, [nd])
      else (c0, [])
    | none => (c0, [])
  let (c1, sysNodes) := sys
  let (c2, pnodes, pids) := ucPrimLoop c1 0 primary
  let (c3, snodes, sids) := ucSecLoop c2 0 secondary
  let (c4, unodes, uids) := ucCaseLoop c3 0 data.usecases
  -- one dictionary, later assignments (use cases, then secondaries) first
  let ids := uids ++ sids ++ pids
  let (_, eds) := ucRelsLoop c4 ids data.relations
  ⟨sysNodes ++ pnodes ++ snodes ++ unodes, eds⟩

/-! ### Activity generator (`generate_activity_diagram`, lines 1066-1204) -/

def styleLane : Str := chars "swimlane;whiteSpace=wrap;html=1;fillColor=#f5f5f5;strokeColor=#666666;fontStyle=1;startSize=30;horizontal=1;"
def styleStart : Str := chars "ellipse;whiteSpace=wrap;html=1;aspect=fixed;fillColor=#000000;"
def styleEnd : Str := chars "ellipse;whiteSpace=wrap;html=1;aspect=fixed;fillColor=#000000;strokeColor=#000000;strokeWidth=3;"
def styleDecision : Str := chars "rhombus;whiteSpace=wrap;html=1;fillColor=#fff2cc;strokeColor=#d6b656;"
def styleForkJoin : Str := chars "rounded=0;whiteSpace=wrap;html=1;fillColor=#000000;strokeColor=#000000;"
def styleActBox : Str := chars "rounded=1;whiteSpace=wrap;html=1;fillColor=#dae8fc;strokeColor=#6c8ebf;"
def styleTrans : Str := chars "endArrow=block;endFill=1;rounded=1;edgeStyle=orthogonalEdgeStyle;"

def lanesLoop (c : Nat) (i : Nat) (totalH : Int) : List Str → Nat × List PNode × List (Str × Int)
  | [] => (c, [], [])
  | lane :: rest =>
    let laneX : Int := 50 + (i : Int) * 300
    let (nd, _, c1) := add_rectangle c lane laneX 50 300 totalH styleLane
    let (c2, nds, xs) := lanesLoop c1 (i + 1) totalH rest
    (c2, nd :: nds, xs ++ [(lane, laneX + 150)])

/-- `get_base_x` (lines 1114-1119): empty or unknown lane names fall back
to the centre column. -/
def baseX (laneXs : List (Str × Int)) (sw : Option Str) : Int :=
  match sw with
  | some l =>
    if l ≠ [] then
      match dget laneXs l with
      | some v => v
      | none => 400
    else 400
  | none => 400

/-- Activity placement loop (lines 1121-1191), with the `visited` id set
and the running `y_pos`. -/
def actNodesLoop (c : Nat) (y : Int) (visited : List Str) (laneXs : List (Str × Int)) :
    List Activity → Nat × List PNode × List (Str × Str)
  | [] => (c, [], [])
  | a :: rest =>
    if visited.contains a.id then actNodesLoop c y visited laneXs rest
    else
      let bx := baseX laneXs a.swimlane
      let x := if a.branch_side = chars "right" then bx + 60 else bx
      let ncy : PNode × Str × Nat × Int :=
        if a.atype = chars "start" then
          let (nd, eid, c1) := add_rectangle c [] (x - 15) y 30 30 styleStart
          (nd, eid, c1, y + 50)
        else if a.atype = chars "end" then
          let (nd, eid, c1) := add_rectangle c [] (x - 15) y 30 30 styleEnd
          (nd, eid, c1, y)
        else if a.atype = chars "decision" then
          let w : Int := max 100 ((a.name.length : Int) * 6 + 20)
          let (nd, eid, c1) := add_rectangle c a.name (x - w / 2) y w 60 styleDecision
          (nd, eid, c1, y + 80)
        else if a.atype = chars "merge" then
          let (nd, eid, c1) := add_rectangle c [] (x - 15) y 30 30 styleDecision
          (nd, eid, c1, y + 50)
        else if a.atype = chars "fork" || a.atype = chars "join" then
          let (nd, eid, c1) := add_rectangle c [] (x - 80) y 160 8 styleForkJoin
          (nd, eid, c1, y + 50)
        else
          let w : Int := max 140 (min 220 ((a.name.length : Int) * 7 + 20))
          let (nd, eid, c1) := add_rectangle c a.name (x - w / 2) y w 50 styleActBox
          (nd, eid, c1, y + 80)
      let (nd, eid, c1, y') := ncy
      let (c2, nds, ids) := actNodesLoop c1 y' (visited ++ [a.id]) laneXs rest
      (c2, nd :: nds, ids ++ [(a.id, eid)])

/-- Transition loop (lines 1194-1202): transitions with an unresolved
endpoint are skipped silently. -/
def actEdgesLoop (c : Nat) (ids : List (Str × Str)) : List Transition → Nat × List PEdge
  | [] => (c, [])
  | t :: rest =>
    match dget ids t.source, dget ids t.target with
    | some sid, some tid =>
      let (e, c1) := add_arrow c sid tid t.label styleTrans
      let (c2, eds) := actEdgesLoop c1 ids rest
      (c2, e :: eds)
    | _, _ => actEdgesLoop c ids rest

def generate_activity_diagram (data : ActModel) (c0 : Nat) : Doc :=
  let lanes : Nat × List PNode × List (Str × Int) × Int :=
    if data.swimlanes ≠ [] then
      let totalH : Int := 100 + (data.activities.length : Int) * 80 + 200
      let (c1, nds, xs) := lanesLoop c0 0 totalH data.swimlanes
      (c1, nds, xs, 130)
    else (c0, [], [], 100)
  let (c1, laneNodes, laneXs, yStart) := lanes
  let (c2, anodes, ids) := actNodesLoop c1 yStart [] laneXs data.activities
  let (_, eds) := actEdgesLoop c2 ids data.transitions
  ⟨laneNodes ++ anodes, eds⟩

/-! ### Full pipeline (`convert_plantuml_to_drawio`, lines 1220-1275,
file I/O and serialisation excluded) -/

def convert_plantuml (content : Str) (c0 : Nat) : Except Str Doc :=
  if detect_diagram_type content = .UNKNOWN then
    .error (chars "Type de diagramme non reconnu")
  else
    match parsePlant content with
    | .error e => .error e
    | .ok (.seq m) => .ok (generate_sequence_diagram m c0)
    | .ok (.cls m) => .ok (generate_class_diagram m c0)
    | .ok (.uc m) => .ok (generate_usecase_diagram m c0)
    | .ok (.act m) => .ok (generate_activity_diagram m c0)

/-! ### Identifier-free view of a document (for C9) -/

/-- A node with its generated identifier erased. -/
def stripN (nd : PNode) : Str × Str × Int × Int × Int × Int :=
  (nd.value, nd.style, nd.x, nd.y, nd.w, nd.h)

/-- An edge with its generated identifier erased; endpoints referencing
generated cell identifiers are erased as well (their numbering differs),
point-anchored endpoints are geometry and kept. -/
def stripE (e : PEdge) : Str × Str × Option (Int × Int × Int × Int) :=
  (e.value, e.style,
   match e.ends with
   | .byPoints a b d f => some (a, b, d, f)
   | .byId _ _ => none)

def stripDoc (d : Doc) : (List (Str × Str × Int × Int × Int × Int)) × (List (Str × Str × Option (Int × Int × Int × Int))) :=
  (d.nodes.map stripN, d.edges.map stripE)

/-! ### Line constructors and expected shapes for the activity claims -/

/-- An activity line `:s;`. -/
def mkActL (s : Str) : Str := ':' :: s ++ [';']

/-- An `if (c) then (y)` line. -/
def mkIfL (c y : Str) : Str := chars "if (" ++ c ++ chars ") then (" ++ y ++ chars ")"

/-- An `else (n)` line. -/
def mkElseL (n : Str) : Str := chars "else (" ++ n ++ chars ")"

/-- Strings usable inside the parenthesised groups of `if`/`else` lines. -/
def noParen (s : Str) : Prop := ∀ a ∈ s, a ≠ ')'

/-- The activity nodes created by a run of `:…;` lines starting at
counter `k`, under decision depth `dep` and side `side`. -/
def actNodes (sw : Option Str) (dep : Nat) (side : Str) (k : Nat) : List Str → List Activity
  | [] => []
  | s :: ss =>
    ⟨actId k, pyStrip (pyStripChars (chars ":;") (mkActL s)), chars "activity", sw, dep, side⟩ ::
      actNodes sw dep side (k + 1) ss

/-- The chain of unlabelled transitions created by a run of `:…;` lines:
from the previous cursor `p` into `act_k`, then `act_k` into `act_(k+1)`, … -/
def actChain (p : Str) (k : Nat) : List Str → List Transition
  | [] => []
  | _ :: ss => ⟨p, actId k, []⟩ :: actChain (actId k) (k + 1) ss

/-- The cursor after a run of `:…;` lines: the last created activity id,
or the incoming cursor `p` when the run is empty. -/
def lastCursor (p : Str) (k : Nat) : List Str → Option Str
  | [] => some p
  | _ :: ss => lastCursor (actId k) (k + 1) ss

def dLabel (d : Decision) : Str :=
  if d.in_else then d.no_label
  else if !d.first_transition_done then d.yes_label
  else []

def dStep (d : Decision) : Decision :=
  if d.in_else then d
  else if !d.first_transition_done then { d with first_transition_done := true }
  else d

def forkBody : List (List Str) → List Str
  | [] => [chars "end fork"]
  | b :: bs => chars "fork again" :: (b.map mkActL ++ forkBody bs)

def forkNodes (sw : Option Str) (k : Nat) : List (List Str) → List Activity
  | [] => []
  | b :: bs => actNodes sw 0 (chars "center") k b ++ forkNodes sw (k + b.length) bs

def forkChains (fid : Str) (k : Nat) : List (List Str) → List Transition
  | [] => []
  | b :: bs => actChain fid k b ++ forkChains fid (k + b.length) bs

def branchEndsP (k : Nat) : List (List Str) → List Str
  | [] => []
  | b :: bs => actId (k + b.length - 1) :: branchEndsP (k + b.length) bs

def sumLens : List (List Str) → Nat
  | [] => 0
  | b :: bs => b.length + sumLens bs

def msgL : Str := chars "A -> B : m"

def msgRec : Message := ⟨chars "A", chars "B", chars "m", false, false⟩

/-! ## Theorems -/

/-- Claim C5: for every input text containing both class-diagram keywords
and the use-case keyword (with the `@startuml` start marker present), the
classifier returns `USECASE`, because the use-case keyword check is
evaluated before the class keyword check in the fixed precedence order of
`_detect_diagram_type`. -/
theorem classifier_usecase_precedence (content : Str)
    (hm : isSubstr (chars "@startuml") (pyLower content) = true)
    (hu : isSubstr (chars "usecase") (pyLower content) = true)
    (hc : [chars "class ", chars "interface ", chars "abstract class",
           chars "extends", chars "implements"].any
        (fun k => isSubstr k (pyLower content)) = true) :
    detect_diagram_type content = DiagramType.USECASE := by
  simp [detect_diagram_type, hm, hu]

/-- Witness for C5 on a concrete text holding both `usecase` and `class `
keywords. -/
theorem classifier_usecase_precedence_witness :
    detect_diagram_type (chars "@startuml\nusecase (X)\nclass A") = DiagramType.USECASE :=
  classifier_usecase_precedence (chars "@startuml\nusecase (X)\nclass A")
    (by decide) (by decide) (by decide)

/-- Claim C6: for every input text lacking the `@startuml` start marker,
classification returns `UNKNOWN` and `parse` raises (here: returns the
`ValueError` message) instead of returning a model. -/
theorem unknown_marker_no_model (content : Str)
    (h : isSubstr (chars "@startuml") (pyLower content) = false) :
    detect_diagram_type content = DiagramType.UNKNOWN ∧
    parsePlant content =
      Except.error (chars "Type de diagramme non supporté: " ++ dtStr DiagramType.UNKNOWN) := by
  have hd : detect_diagram_type content = DiagramType.UNKNOWN := by
    simp [detect_diagram_type, h]
  exact ⟨hd, by simp [parsePlant, hd]⟩

/-- Witness for C6 on a concrete markerless text. -/
theorem unknown_marker_no_model_witness :
    detect_diagram_type (chars "hello world") = DiagramType.UNKNOWN ∧
    parsePlant (chars "hello world") =
      Except.error (chars "Type de diagramme non supporté: " ++ dtStr DiagramType.UNKNOWN) :=
  unknown_marker_no_model (chars "hello world") (by decide)

/-- Claim C3 counterexample: the claim's own example `A -> B: hello` does
not yield target `B`: the greedy `(\S+)` of the message regex captures the
attached colon, so the recorded target is `B:` (the regex's `:?` can only
consume a colon separated from the target by whitespace). -/
theorem message_colon_target_counterexample :
    (parse_sequence [chars "A -> B: hello"]).messages =
      [⟨chars "A", chars "B:", chars "hello", false, false⟩] ∧
    (parse_sequence [chars "A -> B: hello"]).messages.map Message.target ≠ [chars "B"] := by
  constructor
  · decide
  · decide

/-- Claim C3 (amended): for every line the sequence parser recognises as a
message, the recorded flags are computed from the arrow group as
`is_async = (">>" in arrow)` and `is_return = ("--" in arrow) and not
(">>" in arrow)` — a dashed arrow with an open arrowhead (`-->>`) is
asynchronous but NOT a reply; and a colon attached to the target token
stays in the target: `A -> B: hello` yields
{source A, target "B:", label "hello", reply false, async false},
`A --> B: ok` yields {reply true, async false}, and `A ->> B: go` yields
{reply false, async true}. -/
theorem message_flags_amended :
    (∀ line src arrow tgt lbl,
      msgMatch line = some (src, arrow, tgt, lbl) →
      isSubstr (chars "->") line = true →
      pyStarts (chars "'") line = false →
      pyStarts (chars "note") line = false →
      participantMatch line = none →
      fragOpenMatch line = none →
      pyStarts (chars "else") line = false →
      line ≠ chars "end" →
      (parse_sequence [line]).messages =
        [⟨src, tgt, pyStrip lbl,
          isSubstr (chars "--") arrow && !(isSubstr (chars ">>") arrow),
          isSubstr (chars ">>") arrow⟩]) ∧
    (parse_sequence [chars "A -> B: hello"]).messages =
      [⟨chars "A", chars "B:", chars "hello", false, false⟩] ∧
    (parse_sequence [chars "A --> B: ok"]).messages =
      [⟨chars "A", chars "B:", chars "ok", true, false⟩] ∧
    (parse_sequence [chars "A ->> B: go"]).messages =
      [⟨chars "A", chars "B:", chars "go", false, true⟩] ∧
    (parse_sequence [chars "A -->> B: x"]).messages =
      [⟨chars "A", chars "B:", chars "x", false, true⟩] := by
  refine ⟨?_, by decide, by decide, by decide, by decide⟩
  intro line src arrow tgt lbl hm hgate hq hn hp hf he hend
  simp [parse_sequence, stepSeq, hm, hgate, hq, hn, hp, hf, he, hend]

/-- Witness for the amended C3 discharging its hypotheses on a concrete
dashed-open-arrow message line. -/
theorem message_flags_amended_witness :
    (parse_sequence [chars "X -->> Y : go"]).messages =
      [⟨chars "X", chars "Y", chars "go", false, true⟩] := by
  have h := message_flags_amended.1 (chars "X -->> Y : go") (chars "X") (chars "-->>")
    (chars "Y") (chars "go") (by decide) (by decide) (by decide) (by decide) (by decide)
    (by decide) (by decide) (by decide)
  exact h.trans (by decide)

/-- Claim C8 counterexample: the use-case parser records NO relation at
all for the dotted-arrow line `A ..> B : include`: the relation branch's
gate tests for the substrings `-->`, `..|>`, `--`, none of which occurs
in a plain `..>` line, so the line never reaches the relation regex. -/
theorem dotted_arrow_line_skipped :
    (parse_usecase [chars "A ..> B : include"]).relations = [] ∧
    (parse_usecase [chars "A ..> B : extend"]).relations = [] ∧
    ucRelGate (chars "A ..> B : include") = false := by
  refine ⟨by decide, by decide, by decide⟩

/-- Claim C8 (amended): a use-case relation line is recognised only when
it contains one of the substrings `-->`, `..|>`, `--` (so a plain dotted
`..>` line is silently skipped); for a recognised line whose matched
arrow group is dotted (`..>`), the recorded kind is `extends` when the
label contains `extend` case-insensitively and `include` otherwise, and
plain (`--`) and generic (`-->`) association arrows yield kind
`association`. -/
theorem usecase_relation_kind_amended :
    ∀ line src ar tgt lblOpt,
      pyStarts (chars "rectangle ") line = false →
      pyStarts (chars "actor ") line = false →
      pyStarts (chars "usecase ") line = false →
      (pyStarts (chars "(") line && pyEndsChar ')' line) = false →
      ucRelGate line = true →
      ucRelMatch line = some (src, ar, tgt, lblOpt) →
      (parse_usecase [line]).relations =
        [⟨src, tgt,
          (if (isSubstr (chars "..|>") ar || isSubstr (chars "..>") ar) = true then
            (if isSubstr (chars "extend") (pyLower (lblOpt.getD [])) = true then chars "extends"
             else chars "include")
          else chars "association"), lblOpt.getD []⟩] := by
  intro line src ar tgt lblOpt hr ha hu hp hg hm
  simp [parse_usecase, stepUc, hr, ha, hu, hp, hg, hm]

/-- Witness for the amended C8: a dotted-arrow line that passes the gate
(it contains `--` inside its label) and whose label contains `extend`. -/
theorem usecase_relation_kind_amended_witness :
    (parse_usecase [chars "U1 ..> U2 : <<extend>> -- note"]).relations =
      [⟨chars "U1", chars "U2", chars "extends", chars "<<extend>> -- note"⟩] := by
  have h := usecase_relation_kind_amended (chars "U1 ..> U2 : <<extend>> -- note")
    (chars "U1") (chars "..>") (chars "U2") (some (chars "<<extend>> -- note"))
    (by decide) (by decide) (by decide) (by decide) (by decide) (by decide)
  exact h.trans (by decide)

/-- Each parsing step of the activity parser keeps `prev_stack` exactly
one element longer than `decision_stack` (only `if` pushes onto both and
only a matched `endif` pops both); one lemma per branch handler. -/
theorem handleSwimlane_inv (st : ASt) (line : Str)
    (h : st.prev_stack.length = st.decision_stack.length + 1) :
    (handleSwimlane st line).prev_stack.length =
      (handleSwimlane st line).decision_stack.length + 1 := by
  simp only [handleSwimlane]
  repeat' split
  all_goals simp_all

theorem handleStart_inv (st : ASt)
    (h : st.prev_stack.length = st.decision_stack.length + 1) :
    (handleStart st).prev_stack.length = (handleStart st).decision_stack.length + 1 := by
  simp only [handleStart]
  repeat' split
  all_goals simp_all

theorem handleStop_inv (st : ASt)
    (h : st.prev_stack.length = st.decision_stack.length + 1) :
    (handleStop st).prev_stack.length = (handleStop st).decision_stack.length + 1 := by
  simp only [handleStop]
  repeat' split
  all_goals simp_all

theorem handleActivity_inv (st : ASt) (line : Str)
    (h : st.prev_stack.length = st.decision_stack.length + 1) :
    (handleActivity st line).prev_stack.length =
      (handleActivity st line).decision_stack.length + 1 := by
  simp only [handleActivity]
  repeat' split
  all_goals simp_all

theorem handleIf_inv (st : ASt) (c y : Str)
    (h : st.prev_stack.length = st.decision_stack.length + 1) :
    (handleIf st c y).prev_stack.length = (handleIf st c y).decision_stack.length + 1 := by
  simp only [handleIf]
  repeat' split
  all_goals simp_all

theorem handleElse_inv (st : ASt) (n : Str)
    (h : st.prev_stack.length = st.decision_stack.length + 1) :
    (handleElse st n).prev_stack.length = (handleElse st n).decision_stack.length + 1 := by
  simp only [handleElse]
  repeat' split
  all_goals simp_all

theorem handleEndif_inv (st : ASt)
    (h : st.prev_stack.length = st.decision_stack.length + 1) :
    (handleEndif st).prev_stack.length = (handleEndif st).decision_stack.length + 1 := by
  simp only [handleEndif]
  repeat' split
  all_goals simp_all

theorem handleFork_inv (st : ASt)
    (h : st.prev_stack.length = st.decision_stack.length + 1) :
    (handleFork st).prev_stack.length = (handleFork st).decision_stack.length + 1 := by
  simp only [handleFork]
  repeat' split
  all_goals simp_all

theorem handleForkAgain_inv (st : ASt)
    (h : st.prev_stack.length = st.decision_stack.length + 1) :
    (handleForkAgain st).prev_stack.length =
      (handleForkAgain st).decision_stack.length + 1 := by
  simp only [handleForkAgain]
  repeat' split
  all_goals simp_all

theorem handleEndFork_inv (st : ASt)
    (h : st.prev_stack.length = st.decision_stack.length + 1) :
    (handleEndFork st).prev_stack.length =
      (handleEndFork st).decision_stack.length + 1 := by
  simp only [handleEndFork]
  repeat' split
  all_goals simp_all

theorem stepActLine_inv (st : ASt) (line : Str)
    (h : st.prev_stack.length = st.decision_stack.length + 1) :
    (stepActLine st line).prev_stack.length = (stepActLine st line).decision_stack.length + 1 := by
  unfold stepActLine
  repeat' split
  all_goals first
    | exact h
    | exact handleSwimlane_inv st line h
    | exact handleStart_inv st h
    | exact handleStop_inv st h
    | exact handleActivity_inv st line h
    | exact handleIf_inv st _ _ h
    | exact handleElse_inv st _ h
    | exact handleEndif_inv st h
    | exact handleFork_inv st h
    | exact handleForkAgain_inv st h
    | exact handleEndFork_inv st h

theorem stepAct_inv (st : ASt) (line : Str)
    (h : st.prev_stack.length = st.decision_stack.length + 1) :
    (stepAct st line).prev_stack.length = (stepAct st line).decision_stack.length + 1 := by
  unfold stepAct
  repeat' split
  all_goals first
    | exact h
    | exact stepActLine_inv _ _ h

theorem foldl_stepAct_inv (lines : List Str) (st : ASt)
    (h : st.prev_stack.length = st.decision_stack.length + 1) :
    (lines.foldl stepAct st).prev_stack.length =
      (lines.foldl stepAct st).decision_stack.length + 1 := by
  induction lines generalizing st with
  | nil => exact h
  | cons l ls ih => exact ih _ (stepAct_inv st l h)

/-- Claim C10: throughout activity parsing (after any list of input
lines, hence after each line of any input), the cursor stack
`prev_stack` is exactly one element longer than `decision_stack` — each
`if` pushes one frame onto both, each matched `endif` pops one from
both, and no other line changes either stack's length — so in
particular the cursor stack is never empty and reading its top element
never fails. -/
theorem activity_stack_invariant (lines : List Str) :
    (parseActivitySt lines).prev_stack.length =
      (parseActivitySt lines).decision_stack.length + 1 ∧
    (parseActivitySt lines).prev_stack ≠ [] := by
  have h := foldl_stepAct_inv lines actInit (by decide)
  have h' : (parseActivitySt lines).prev_stack.length =
      (parseActivitySt lines).decision_stack.length + 1 := h
  refine ⟨h', ?_⟩
  intro hc
  rw [hc] at h'
  simp at h' 

theorem getLast?_cons_concat (a b : Char) (l : Str) : (a :: (l ++ [b])).getLast? = some b := by
  rw [← List.cons_append, List.getLast?_concat]

theorem pyEndsChar_cons_concat (c a : Char) (l : Str) : pyEndsChar c (a :: (l ++ [c])) = true := by
  simp [pyEndsChar, getLast?_cons_concat]

theorem matchIfThen_colon (s : Str) : matchIfThen (':' :: s) = none := by
  simp [matchIfThen, lit, List.isPrefixOf, chars]

theorem matchElseAct_colon (s : Str) : matchElseAct (':' :: s) = none := by
  simp [matchElseAct, lit, List.isPrefixOf, chars]

theorem stepAct_actLine (st : ASt) (s : Str) (h : st.multiline = none) :
    stepAct st (mkActL s) = handleActivity st (mkActL s) := by
  unfold stepAct mkActL
  rw [h]
  simp [pyStarts, chars, List.isPrefixOf, pyEndsChar_cons_concat, stepActLine,
    matchIfThen_colon, matchElseAct_colon]

theorem handleActivity_run (st : ASt) (s : Str) (d : Decision) (ds : List Decision)
    (p : Str) (rest : List (Option Str))
    (hdec : st.decision_stack = d :: ds)
    (hprev : st.prev_stack = some p :: rest)
    (hne : p ≠ d.id) :
    handleActivity st (mkActL s) =
      { st with
        activities := st.activities ++
          actNodes st.current_swimlane (d :: ds).length (branchSide (d :: ds)) st.activity_id [s],
        transitions := st.transitions ++ [⟨p, actId st.activity_id, []⟩],
        prev_stack := some (actId st.activity_id) :: rest,
        activity_id := st.activity_id + 1 } := by
  simp [handleActivity, hprev, hdec, hne, actNodes]

theorem runActs_dec (names : List Str) (st : ASt) (d : Decision) (ds : List Decision)
    (p : Str) (rest : List (Option Str))
    (hml : st.multiline = none)
    (hdec : st.decision_stack = d :: ds)
    (hprev : st.prev_stack = some p :: rest)
    (hne : p ≠ d.id)
    (hgen : ∀ k, actId k ≠ d.id) :
    (names.map mkActL).foldl stepAct st =
      { st with
        activities := st.activities ++
          actNodes st.current_swimlane (d :: ds).length (branchSide (d :: ds)) st.activity_id names,
        transitions := st.transitions ++ actChain p st.activity_id names,
        prev_stack := lastCursor p st.activity_id names :: rest,
        activity_id := st.activity_id + names.length } := by
  induction names generalizing st p with
  | nil => simp [actNodes, actChain, lastCursor, ← hprev]
  | cons s ss ih =>
    rw [List.map_cons, List.foldl_cons, stepAct_actLine st s hml,
      handleActivity_run st s d ds p rest hdec hprev hne]
    rw [ih _ _ (by simp [hml]) (by simp [hdec]) (by simp) (hgen st.activity_id)]
    simp [actNodes, actChain, lastCursor, List.append_assoc]
    omega

theorem takeWhile_append_cons (p : Char → Bool) (l : Str) (b : Char) (r : Str)
    (hl : ∀ a ∈ l, p a = true) (hb : p b = false) :
    (l ++ b :: r).takeWhile p = l := by
  induction l with
  | nil => simp [List.takeWhile_cons, hb]
  | cons a as ih => simp_all [List.takeWhile_cons]


theorem drop_len_succ_append (l : Str) (b : Char) (r : Str) :
    (l ++ b :: r).drop (l.length + 1) = r := by
  induction l with
  | nil => simp
  | cons a as ih => simp [ih]

theorem matchIfThen_mk (c y : Str) (hc : c ≠ []) (hcp : noParen c) (hyp : noParen y) :
    matchIfThen (mkIfL c y) = some (c, y) := by
  have h1 : (mkIfL c y) = 'i' :: 'f' :: ' ' :: '(' :: (c ++ (')' :: ' ' :: 't' :: 'h' :: 'e' :: 'n' :: ' ' :: '(' :: (y ++ [')']))) := by
    simp [mkIfL, chars]
  have htw : List.takeWhile (fun ch => !decide (ch = ')'))
      (c ++ (')' :: ' ' :: 't' :: 'h' :: 'e' :: 'n' :: ' ' :: '(' :: (y ++ [')']))) = c := by
    refine takeWhile_append_cons _ _ _ _ (fun a ha => by simp [hcp a ha]) (by simp)
  have hty : List.takeWhile (fun ch => !decide (ch = ')')) (y ++ [')']) = y := by
    have h2 : (y ++ [')']) = y ++ (')' :: ([] : Str)) := rfl
    rw [h2]
    refine takeWhile_append_cons _ _ _ _ (fun a ha => by simp [hyp a ha]) (by simp)
  simp [matchIfThen, h1, lit, chars, List.isPrefixOf, skipWS, List.dropWhile, isWS, htw, hty,
    hc, List.drop_left, drop_len_succ_append, -List.takeWhile_eq_nil_iff]

theorem matchElseAct_mk (n : Str) (hnp : noParen n) :
    matchElseAct (mkElseL n) = some n := by
  have h1 : (mkElseL n) = 'e' :: 'l' :: 's' :: 'e' :: ' ' :: '(' :: (n ++ [')']) := by
    simp [mkElseL, chars]
  have htn : List.takeWhile (fun ch => !decide (ch = ')')) (n ++ [')']) = n := by
    have h2 : (n ++ [')']) = n ++ (')' :: ([] : Str)) := rfl
    rw [h2]
    refine takeWhile_append_cons _ _ _ _ (fun a ha => by simp [hnp a ha]) (by simp)
  simp [matchElseAct, h1, lit, chars, List.isPrefixOf, skipWS, List.dropWhile, isWS, htn,
    List.drop_left, drop_len_succ_append, -List.takeWhile_eq_nil_iff]

theorem stepAct_start (st : ASt) (h : st.multiline = none) :
    stepAct st (chars "start") = handleStart st := by
  unfold stepAct
  rw [h]
  rfl

theorem stepAct_stop (st : ASt) (h : st.multiline = none) :
    stepAct st (chars "stop") = handleStop st := by
  unfold stepAct
  rw [h]
  rfl

theorem stepAct_endif (st : ASt) (h : st.multiline = none) :
    stepAct st (chars "endif") = handleEndif st := by
  unfold stepAct
  rw [h]
  rfl

theorem stepAct_fork (st : ASt) (h : st.multiline = none) :
    stepAct st (chars "fork") = handleFork st := by
  unfold stepAct
  rw [h]
  rfl

theorem stepAct_forkAgain (st : ASt) (h : st.multiline = none) :
    stepAct st (chars "fork again") = handleForkAgain st := by
  unfold stepAct
  rw [h]
  rfl

theorem stepAct_endFork (st : ASt) (h : st.multiline = none) :
    stepAct st (chars "end fork") = handleEndFork st := by
  unfold stepAct
  rw [h]
  rfl

theorem stepAct_ifLine (st : ASt) (c y : Str) (h : st.multiline = none)
    (hc : c ≠ []) (hcp : noParen c) (hyp : noParen y) :
    stepAct st (mkIfL c y) = handleIf st c y := by
  have hm := matchIfThen_mk c y hc hcp hyp
  have h1 : (mkIfL c y) = 'i' :: ('f' :: ' ' :: '(' :: (c ++ (')' :: ' ' :: 't' :: 'h' :: 'e' :: 'n' :: ' ' :: '(' :: (y ++ [')'])))) := by
    simp [mkIfL, chars]
  unfold stepAct
  rw [h]
  rw [h1] at hm ⊢
  simp [pyStarts, chars, List.isPrefixOf, stepActLine, hm]

theorem stepAct_elseLine (st : ASt) (n : Str) (h : st.multiline = none) (hnp : noParen n) :
    stepAct st (mkElseL n) = handleElse st n := by
  have hm := matchElseAct_mk n hnp
  have h1 : (mkElseL n) = 'e' :: ('l' :: 's' :: 'e' :: ' ' :: '(' :: (n ++ [')'])) := by
    simp [mkElseL, chars]
  have hmi : matchIfThen (mkElseL n) = none := by
    rw [h1]
    simp [matchIfThen, lit, chars, List.isPrefixOf]
  unfold stepAct
  rw [h]
  rw [h1] at hm hmi ⊢
  simp [pyStarts, chars, List.isPrefixOf, stepActLine, hm, hmi]

theorem actId_ne_mergeId (j k : Nat) : actId j ≠ mergeId k := by simp [actId, mergeId, chars]
theorem actId_ne_decId (j k : Nat) : actId j ≠ decId k := by simp [actId, decId, chars]
theorem decId_ne_mergeId (j k : Nat) : decId j ≠ mergeId k := by simp [decId, mergeId, chars]
theorem start_ne_mergeId (k : Nat) : chars "start" ≠ mergeId k := by simp [mergeId, chars]
theorem actId_ne_joinId (j k : Nat) : actId j ≠ joinId k := by simp [actId, joinId, chars]
theorem forkId_ne_joinId (j k : Nat) : forkId j ≠ joinId k := by simp [forkId, joinId, chars]
theorem start_ne_joinId (k : Nat) : chars "start" ≠ joinId k := by simp [joinId, chars]



theorem dStep_id (d : Decision) : (dStep d).id = d.id := by
  simp [dStep]
  split
  · rfl
  · split <;> rfl

theorem branchSide_dStep (d : Decision) (ds : List Decision) :
    branchSide (dStep d :: ds) = branchSide (d :: ds) := by
  simp [branchSide, dStep]
  split
  · rfl
  · split <;> simp_all [branchSide]

theorem lastCursor_act (as' : List Str) (j k : Nat) (h : k = j + 1) :
    lastCursor (actId j) k as' = some (actId (j + as'.length)) := by
  induction as' generalizing j k with
  | nil => simp [lastCursor, h]
  | cons s ss ih =>
    subst h
    rw [lastCursor, ih (j + 1) (j + 2) rfl]
    simp only [List.length_cons]
    congr 2
    omega

theorem runBranch_cons (a : Str) (as' : List Str) (st : ASt) (d : Decision) (ds : List Decision)
    (rest : List (Option Str))
    (hml : st.multiline = none)
    (hdec : st.decision_stack = d :: ds)
    (hprev : st.prev_stack = some d.id :: rest)
    (hgen : ∀ k, actId k ≠ d.id) :
    ((a :: as').map mkActL).foldl stepAct st =
      { st with
        activities := st.activities ++
          actNodes st.current_swimlane (d :: ds).length (branchSide (d :: ds)) st.activity_id (a :: as'),
        transitions := st.transitions ++
          (⟨d.id, actId st.activity_id, dLabel d⟩ :: actChain (actId st.activity_id) (st.activity_id + 1) as'),
        prev_stack := some (actId (st.activity_id + as'.length)) :: rest,
        activity_id := st.activity_id + (as'.length + 1),
        decision_stack := dStep d :: ds } := by
  rw [List.map_cons, List.foldl_cons, stepAct_actLine st a hml]
  have h1 : handleActivity st (mkActL a) = { st with
      activities := st.activities ++
        actNodes st.current_swimlane (d :: ds).length (branchSide (d :: ds)) st.activity_id [a],
      transitions := st.transitions ++ [⟨d.id, actId st.activity_id, dLabel d⟩],
      prev_stack := some (actId st.activity_id) :: rest,
      activity_id := st.activity_id + 1,
      decision_stack := dStep d :: ds } := by
    simp only [handleActivity, hprev, hdec, actNodes, dLabel, dStep]
    split
    · by_cases hie : d.in_else = true
      · simp [hie]
      · by_cases hftd : d.first_transition_done = false
        · simp [hie, hftd]
        · simp [hie, hftd]
    · simp_all
  rw [h1]
  rw [runActs_dec as' _ (dStep d) ds (actId st.activity_id) rest (by simp [hml]) (by simp)
    (by simp) (by rw [dStep_id]; exact hgen st.activity_id) (fun k => by rw [dStep_id]; exact hgen k)]
  simp [actNodes, actChain, branchSide_dStep, List.append_assoc,
    lastCursor_act as' st.activity_id (st.activity_id + 1) rfl]
  omega

theorem actNodes_filter_atype (sw : Option Str) (dep : Nat) (side : Str) (k : Nat)
    (names : List Str) (t : Str) (h : ¬ chars "activity" = t) :
    (actNodes sw dep side k names).filter (fun x => x.atype = t) = [] := by
  induction names generalizing k with
  | nil => simp [actNodes]
  | cons s ss ih => simp [actNodes, List.filter_cons, h, ih]

theorem actChain_no_target (p : Str) (k : Nat) (names : List Str) (t : Str)
    (h : ∀ j, actId j ≠ t) :
    (actChain p k names).filter (fun x => x.target = t) = [] := by
  induction names generalizing p k with
  | nil => simp [actChain]
  | cons s ss ih => simp [actChain, h k, ih, List.filter_cons, -List.filter_eq_nil_iff]

theorem c1_partA (c y n a b : Str) (as' bs' : List Str)
    (hc : c ≠ []) (hy : y ≠ []) (hn : n ≠ [])
    (hcp : noParen c) (hyp : noParen y) (hnp : noParen n) :
    ((parse_activity (chars "start" :: mkIfL c y ::
        ((a :: as').map mkActL ++ (mkElseL n :: ((b :: bs').map mkActL ++ [chars "endif"]))))).activities.filter
      (fun x => x.atype = chars "merge")).length = 1 := by
  unfold parse_activity parseActivitySt
  rw [List.foldl_cons, List.foldl_cons, stepAct_start _ (by rfl)]
  rw [show handleStart actInit =
      (⟨[⟨chars "start", [], chars "start", none, 0, chars "center"⟩], [], [], none,
        [some (chars "start")], [], [], 0, 0, 0, none⟩ : ASt) from by decide]
  rw [stepAct_ifLine _ c y (by rfl) hc hcp hyp]
  rw [show handleIf (⟨[⟨chars "start", [], chars "start", none, 0, chars "center"⟩], [], [], none,
        [some (chars "start")], [], [], 0, 0, 0, none⟩ : ASt) c y =
      (⟨[⟨chars "start", [], chars "start", none, 0, chars "center"⟩,
         ⟨decId 0, c, chars "decision", none, 0, chars "center"⟩],
        [⟨chars "start", decId 0, []⟩], [], none,
        [some (decId 0), some (chars "start")],
        [⟨decId 0, y, chars "non", none, false, 0, false⟩], [], 1, 0, 0, none⟩ : ASt) from by
    simp [handleIf, hy]]
  rw [List.foldl_append]
  rw [runBranch_cons a as' _ ⟨decId 0, y, chars "non", none, false, 0, false⟩ []
    [some (chars "start")] (by rfl) (by rfl) (by rfl) (fun k => actId_ne_decId k 0)]
  rw [List.foldl_cons]
  rw [stepAct_elseLine _ n (by simp) hnp]
  simp only [handleElse]
  simp only [dStep, dLabel, branchSide, Bool.false_eq_true, if_neg, if_false, Bool.not_false,
    if_true]
  simp only [show (false = true) = False from by simp, if_false, hn, if_neg hn, Bool.not_false,
    if_true]
  rw [List.foldl_append]
  rw [runBranch_cons b bs' _
    ⟨decId 0, y, n, some (actId (1 + as'.length)), true, 0, false⟩ []
    [some (chars "start")] (by rfl) (by rfl) (by rfl) (fun k => actId_ne_decId k 0)]
  rw [List.foldl_cons, List.foldl_nil]
  rw [stepAct_endif _ (by rfl)]
  simp only [handleEndif]
  simp [dStep, dLabel, branchSide, actId_ne_decId, List.filter_append, List.filter_cons,
    actNodes_filter_atype _ _ _ _ _ _ (show ¬ chars "activity" = chars "merge" by decide),
    (show ¬ chars "start" = chars "merge" by decide),
    (show ¬ chars "decision" = chars "merge" by decide)]

theorem c1_partA2 (c y n a b : Str) (as' bs' : List Str)
    (hc : c ≠ []) (hy : y ≠ []) (hn : n ≠ [])
    (hcp : noParen c) (hyp : noParen y) (hnp : noParen n) :
    (parse_activity (chars "start" :: mkIfL c y ::
        ((a :: as').map mkActL ++ (mkElseL n :: ((b :: bs').map mkActL ++ [chars "endif"]))))).transitions.filter
      (fun t => t.target = mergeId ((a :: as').length + (b :: bs').length + 1)) =
      [⟨actId (a :: as').length, mergeId ((a :: as').length + (b :: bs').length + 1), []⟩,
       ⟨actId ((a :: as').length + (b :: bs').length),
        mergeId ((a :: as').length + (b :: bs').length + 1), []⟩] := by
  unfold parse_activity parseActivitySt
  rw [List.foldl_cons, List.foldl_cons, stepAct_start _ (by rfl)]
  rw [show handleStart actInit =
      (⟨[⟨chars "start", [], chars "start", none, 0, chars "center"⟩], [], [], none,
        [some (chars "start")], [], [], 0, 0, 0, none⟩ : ASt) from by decide]
  rw [stepAct_ifLine _ c y (by rfl) hc hcp hyp]
  rw [show handleIf (⟨[⟨chars "start", [], chars "start", none, 0, chars "center"⟩], [], [], none,
        [some (chars "start")], [], [], 0, 0, 0, none⟩ : ASt) c y =
      (⟨[⟨chars "start", [], chars "start", none, 0, chars "center"⟩,
         ⟨decId 0, c, chars "decision", none, 0, chars "center"⟩],
        [⟨chars "start", decId 0, []⟩], [], none,
        [some (decId 0), some (chars "start")],
        [⟨decId 0, y, chars "non", none, false, 0, false⟩], [], 1, 0, 0, none⟩ : ASt) from by
    simp [handleIf, hy]]
  rw [List.foldl_append]
  rw [runBranch_cons a as' _ ⟨decId 0, y, chars "non", none, false, 0, false⟩ []
    [some (chars "start")] (by rfl) (by rfl) (by rfl) (fun k => actId_ne_decId k 0)]
  rw [List.foldl_cons]
  rw [stepAct_elseLine _ n (by simp) hnp]
  simp only [handleElse]
  simp only [dStep, dLabel, branchSide, Bool.false_eq_true, if_neg, if_false, Bool.not_false,
    if_true]
  simp only [show (false = true) = False from by simp, if_false, hn, if_neg hn, Bool.not_false,
    if_true]
  rw [List.foldl_append]
  rw [runBranch_cons b bs' _
    ⟨decId 0, y, n, some (actId (1 + as'.length)), true, 0, false⟩ []
    [some (chars "start")] (by rfl) (by rfl) (by rfl) (fun k => actId_ne_decId k 0)]
  rw [List.foldl_cons, List.foldl_nil]
  rw [stepAct_endif _ (by rfl)]
  simp only [handleEndif]
  simp [dStep, dLabel, branchSide, actId_ne_decId, decId_ne_mergeId, actId_ne_mergeId,
    List.filter_append, List.filter_cons, actChain_no_target _ _ _ _ (fun j => actId_ne_mergeId j _),
    Nat.add_comm, Nat.add_assoc, Nat.add_left_comm]

theorem runBranch_weak (names : List Str) (st : ASt) (d : Decision) (ds : List Decision)
    (rest : List (Option Str))
    (hml : st.multiline = none)
    (hdec : st.decision_stack = d :: ds)
    (hprev : st.prev_stack = some d.id :: rest)
    (hgen : ∀ k, actId k ≠ d.id) :
    ∃ (q : Str) (d' : Decision) (acts : List Activity) (trs : List Transition) (k : Nat),
      (names.map mkActL).foldl stepAct st =
        { st with activities := st.activities ++ acts, transitions := st.transitions ++ trs,
                  prev_stack := some q :: rest, decision_stack := d' :: ds, activity_id := k } ∧
      acts.filter (fun x => x.atype = chars "merge") = [] ∧
      d'.id = d.id ∧ d'.first_branch_end = d.first_branch_end := by
  cases names with
  | nil =>
    refine ⟨d.id, d, [], [], st.activity_id, ?_, by simp, rfl, rfl⟩
    simp [← hprev, ← hdec]
  | cons a as' =>
    refine ⟨actId (st.activity_id + as'.length), dStep d,
      actNodes st.current_swimlane (d :: ds).length (branchSide (d :: ds)) st.activity_id (a :: as'),
      ⟨d.id, actId st.activity_id, dLabel d⟩ :: actChain (actId st.activity_id) (st.activity_id + 1) as',
      st.activity_id + (as'.length + 1),
      runBranch_cons a as' st d ds rest hml hdec hprev hgen,
      actNodes_filter_atype _ _ _ _ _ _ (show ¬ chars "activity" = chars "merge" by decide),
      dStep_id d, ?_⟩
    simp [dStep]
    split
    · rfl
    · split <;> rfl

theorem c1_stateB (c y n : Str) (cs ds : List Str)
    (hc : c ≠ []) (hy : y ≠ []) (hn : n ≠ [])
    (hcp : noParen c) (hyp : noParen y) (hnp : noParen n) :
    ∃ (acts : List Activity) (trs : List Transition) (k : Nat),
      parseActivitySt (chars "start" :: mkIfL c y ::
        (cs.map mkActL ++ (chars "stop" :: mkElseL n ::
          (ds.map mkActL ++ [chars "stop", chars "endif"])))) =
        ⟨acts, trs, [], none, [some (chars "start")], [], [], k, 0, 2, none⟩ ∧
      acts.filter (fun x => x.atype = chars "merge") = [] := by
  cases cs with
  | cons a as' =>
    cases ds with
    | cons b bs' =>
      refine ⟨⟨chars "start", [], chars "start", none, 0, chars "center"⟩ ::
          ⟨decId 0, c, chars "decision", none, 0, chars "center"⟩ ::
          (actNodes none 1 (chars "center") 1 (a :: as') ++
            ⟨stopId 0, [], chars "end", none, 1, chars "center"⟩ ::
              (actNodes none 1 (chars "right") (1 + (as'.length + 1)) (b :: bs') ++
                [⟨stopId 1, [], chars "end", none, 1, chars "right"⟩])),
        ⟨chars "start", decId 0, []⟩ ::
          ⟨decId 0, actId 1, y⟩ ::
            (actChain (actId 1) 2 as' ++
              ⟨actId (1 + as'.length), stopId 0, []⟩ ::
                ⟨decId 0, actId (1 + (as'.length + 1)), n⟩ ::
                  (actChain (actId (1 + (as'.length + 1))) (1 + (as'.length + 1) + 1) bs' ++
                    [⟨actId (1 + (as'.length + 1) + bs'.length), stopId 1, []⟩])),
        1 + (as'.length + 1) + (bs'.length + 1), ?_, ?_⟩
      · unfold parseActivitySt
        rw [List.foldl_cons, List.foldl_cons, stepAct_start _ (by rfl)]
        rw [show handleStart actInit =
            (⟨[⟨chars "start", [], chars "start", none, 0, chars "center"⟩], [], [], none,
              [some (chars "start")], [], [], 0, 0, 0, none⟩ : ASt) from by decide]
        rw [stepAct_ifLine _ c y (by rfl) hc hcp hyp]
        rw [show handleIf (⟨[⟨chars "start", [], chars "start", none, 0, chars "center"⟩], [], [], none,
              [some (chars "start")], [], [], 0, 0, 0, none⟩ : ASt) c y =
            (⟨[⟨chars "start", [], chars "start", none, 0, chars "center"⟩,
               ⟨decId 0, c, chars "decision", none, 0, chars "center"⟩],
              [⟨chars "start", decId 0, []⟩], [], none,
              [some (decId 0), some (chars "start")],
              [⟨decId 0, y, chars "non", none, false, 0, false⟩], [], 1, 0, 0, none⟩ : ASt) from by
          simp [handleIf, hy]]
        rw [List.foldl_append]
        rw [runBranch_cons a as' _ ⟨decId 0, y, chars "non", none, false, 0, false⟩ []
          [some (chars "start")] (by rfl) (by rfl) (by rfl) (fun k => actId_ne_decId k 0)]
        rw [List.foldl_cons, stepAct_stop _ (by rfl)]
        simp only [handleStop]
        rw [List.foldl_cons, stepAct_elseLine _ n (by rfl) hnp]
        simp only [handleElse]
        simp only [dStep, dLabel, branchSide, Bool.false_eq_true, if_false, Bool.not_false, if_true,
          if_neg hn]
        rw [List.foldl_append]
        rw [runBranch_cons b bs' _ ⟨decId 0, y, n, none, true, 0, false⟩ []
          [some (chars "start")] (by rfl) (by rfl) (by rfl) (fun k => actId_ne_decId k 0)]
        rw [List.foldl_cons, stepAct_stop _ (by rfl), List.foldl_cons, List.foldl_nil]
        simp only [handleStop]
        rw [stepAct_endif _ (by rfl)]
        simp only [handleEndif]
        simp [dStep, dLabel, branchSide]
      · simp [List.filter_append, List.filter_cons,
          actNodes_filter_atype _ _ _ _ _ _ (show ¬ chars "activity" = chars "merge" by decide),
          (show ¬ chars "start" = chars "merge" by decide),
          (show ¬ chars "decision" = chars "merge" by decide),
          (show ¬ chars "end" = chars "merge" by decide)]
    | nil =>
      refine ⟨⟨chars "start", [], chars "start", none, 0, chars "center"⟩ ::
          ⟨decId 0, c, chars "decision", none, 0, chars "center"⟩ ::
          (actNodes none 1 (chars "center") 1 (a :: as') ++
            ⟨stopId 0, [], chars "end", none, 1, chars "center"⟩ ::
              [⟨stopId 1, [], chars "end", none, 1, chars "right"⟩]),
        ⟨chars "start", decId 0, []⟩ ::
          ⟨decId 0, actId 1, y⟩ ::
            (actChain (actId 1) 2 as' ++
              ⟨actId (1 + as'.length), stopId 0, []⟩ ::
                [⟨decId 0, stopId 1, []⟩]),
        1 + (as'.length + 1), ?_, ?_⟩
      · unfold parseActivitySt
        rw [List.foldl_cons, List.foldl_cons, stepAct_start _ (by rfl)]
        rw [show handleStart actInit =
            (⟨[⟨chars "start", [], chars "start", none, 0, chars "center"⟩], [], [], none,
              [some (chars "start")], [], [], 0, 0, 0, none⟩ : ASt) from by decide]
        rw [stepAct_ifLine _ c y (by rfl) hc hcp hyp]
        rw [show handleIf (⟨[⟨chars "start", [], chars "start", none, 0, chars "center"⟩], [], [], none,
              [some (chars "start")], [], [], 0, 0, 0, none⟩ : ASt) c y =
            (⟨[⟨chars "start", [], chars "start", none, 0, chars "center"⟩,
               ⟨decId 0, c, chars "decision", none, 0, chars "center"⟩],
              [⟨chars "start", decId 0, []⟩], [], none,
              [some (decId 0), some (chars "start")],
              [⟨decId 0, y, chars "non", none, false, 0, false⟩], [], 1, 0, 0, none⟩ : ASt) from by
          simp [handleIf, hy]]
        rw [List.foldl_append]
        rw [runBranch_cons a as' _ ⟨decId 0, y, chars "non", none, false, 0, false⟩ []
          [some (chars "start")] (by rfl) (by rfl) (by rfl) (fun k => actId_ne_decId k 0)]
        rw [List.foldl_cons, stepAct_stop _ (by rfl)]
        simp only [handleStop]
        rw [List.foldl_cons, stepAct_elseLine _ n (by rfl) hnp]
        simp only [handleElse]
        simp only [dStep, dLabel, branchSide, Bool.false_eq_true, if_false, Bool.not_false, if_true,
          if_neg hn]
        try simp only [List.map_nil, List.nil_append]
        rw [List.foldl_cons, stepAct_stop _ (by rfl), List.foldl_cons, List.foldl_nil]
        simp only [handleStop]
        rw [stepAct_endif _ (by rfl)]
        simp only [handleEndif]
        simp [dStep, dLabel, branchSide]
      · simp [List.filter_append, List.filter_cons,
          actNodes_filter_atype _ _ _ _ _ _ (show ¬ chars "activity" = chars "merge" by decide),
          (show ¬ chars "start" = chars "merge" by decide),
          (show ¬ chars "decision" = chars "merge" by decide),
          (show ¬ chars "end" = chars "merge" by decide)]
  | nil =>
    cases ds with
    | cons b bs' =>
      refine ⟨⟨chars "start", [], chars "start", none, 0, chars "center"⟩ ::
          ⟨decId 0, c, chars "decision", none, 0, chars "center"⟩ ::
          ⟨stopId 0, [], chars "end", none, 1, chars "center"⟩ ::
            (actNodes none 1 (chars "right") 1 (b :: bs') ++
              [⟨stopId 1, [], chars "end", none, 1, chars "right"⟩]),
        ⟨chars "start", decId 0, []⟩ ::
          ⟨decId 0, stopId 0, []⟩ ::
            ⟨decId 0, actId 1, n⟩ ::
              (actChain (actId 1) 2 bs' ++
                [⟨actId (1 + bs'.length), stopId 1, []⟩]),
        1 + (bs'.length + 1), ?_, ?_⟩
      · unfold parseActivitySt
        rw [List.foldl_cons, List.foldl_cons, stepAct_start _ (by rfl)]
        rw [show handleStart actInit =
            (⟨[⟨chars "start", [], chars "start", none, 0, chars "center"⟩], [], [], none,
              [some (chars "start")], [], [], 0, 0, 0, none⟩ : ASt) from by decide]
        rw [stepAct_ifLine _ c y (by rfl) hc hcp hyp]
        rw [show handleIf (⟨[⟨chars "start", [], chars "start", none, 0, chars "center"⟩], [], [], none,
              [some (chars "start")], [], [], 0, 0, 0, none⟩ : ASt) c y =
            (⟨[⟨chars "start", [], chars "start", none, 0, chars "center"⟩,
               ⟨decId 0, c, chars "decision", none, 0, chars "center"⟩],
              [⟨chars "start", decId 0, []⟩], [], none,
              [some (decId 0), some (chars "start")],
              [⟨decId 0, y, chars "non", none, false, 0, false⟩], [], 1, 0, 0, none⟩ : ASt) from by
          simp [handleIf, hy]]
        try simp only [List.map_nil, List.nil_append]
        rw [List.foldl_cons, stepAct_stop _ (by rfl)]
        simp only [handleStop]
        rw [List.foldl_cons, stepAct_elseLine _ n (by rfl) hnp]
        simp only [handleElse]
        simp only [dStep, dLabel, branchSide, Bool.false_eq_true, if_false, Bool.not_false, if_true,
          if_neg hn]
        rw [List.foldl_append]
        rw [runBranch_cons b bs' _ ⟨decId 0, y, n, none, true, 0, false⟩ []
          [some (chars "start")] (by rfl) (by rfl) (by rfl) (fun k => actId_ne_decId k 0)]
        rw [List.foldl_cons, stepAct_stop _ (by rfl), List.foldl_cons, List.foldl_nil]
        simp only [handleStop]
        rw [stepAct_endif _ (by rfl)]
        simp only [handleEndif]
        simp [dStep, dLabel, branchSide]
      · simp [List.filter_append, List.filter_cons,
          actNodes_filter_atype _ _ _ _ _ _ (show ¬ chars "activity" = chars "merge" by decide),
          (show ¬ chars "start" = chars "merge" by decide),
          (show ¬ chars "decision" = chars "merge" by decide),
          (show ¬ chars "end" = chars "merge" by decide)]
    | nil =>
      refine ⟨[⟨chars "start", [], chars "start", none, 0, chars "center"⟩,
          ⟨decId 0, c, chars "decision", none, 0, chars "center"⟩,
          ⟨stopId 0, [], chars "end", none, 1, chars "center"⟩,
          ⟨stopId 1, [], chars "end", none, 1, chars "right"⟩],
        [⟨chars "start", decId 0, []⟩, ⟨decId 0, stopId 0, []⟩, ⟨decId 0, stopId 1, []⟩],
        1, ?_, ?_⟩
      · unfold parseActivitySt
        rw [List.foldl_cons, List.foldl_cons, stepAct_start _ (by rfl)]
        rw [show handleStart actInit =
            (⟨[⟨chars "start", [], chars "start", none, 0, chars "center"⟩], [], [], none,
              [some (chars "start")], [], [], 0, 0, 0, none⟩ : ASt) from by decide]
        rw [stepAct_ifLine _ c y (by rfl) hc hcp hyp]
        rw [show handleIf (⟨[⟨chars "start", [], chars "start", none, 0, chars "center"⟩], [], [], none,
              [some (chars "start")], [], [], 0, 0, 0, none⟩ : ASt) c y =
            (⟨[⟨chars "start", [], chars "start", none, 0, chars "center"⟩,
               ⟨decId 0, c, chars "decision", none, 0, chars "center"⟩],
              [⟨chars "start", decId 0, []⟩], [], none,
              [some (decId 0), some (chars "start")],
              [⟨decId 0, y, chars "non", none, false, 0, false⟩], [], 1, 0, 0, none⟩ : ASt) from by
          simp [handleIf, hy]]
        try simp only [List.map_nil, List.nil_append]
        rw [List.foldl_cons, stepAct_stop _ (by rfl)]
        simp only [handleStop]
        rw [List.foldl_cons, stepAct_elseLine _ n (by rfl) hnp]
        simp only [handleElse]
        simp only [dStep, dLabel, branchSide, Bool.false_eq_true, if_false, Bool.not_false, if_true,
          if_neg hn]
        try simp only [List.map_nil, List.nil_append]
        rw [List.foldl_cons, stepAct_stop _ (by rfl), List.foldl_cons, List.foldl_nil]
        simp only [handleStop]
        rw [stepAct_endif _ (by rfl)]
        simp only [handleEndif]
        simp [dStep, dLabel, branchSide]
      · simp [List.filter_append, List.filter_cons,
          actNodes_filter_atype _ _ _ _ _ _ (show ¬ chars "activity" = chars "merge" by decide),
          (show ¬ chars "start" = chars "merge" by decide),
          (show ¬ chars "decision" = chars "merge" by decide),
          (show ¬ chars "end" = chars "merge" by decide)]







theorem runActs_nodec0 (names : List Str) (st : ASt) (p : Str) (rest : List (Option Str))
    (hml : st.multiline = none)
    (hdec : st.decision_stack = [])
    (hprev : st.prev_stack = some p :: rest) :
    (names.map mkActL).foldl stepAct st =
      { st with
        activities := st.activities ++
          actNodes st.current_swimlane 0 (chars "center") st.activity_id names,
        transitions := st.transitions ++ actChain p st.activity_id names,
        prev_stack := lastCursor p st.activity_id names :: rest,
        activity_id := st.activity_id + names.length } := by
  induction names generalizing st p with
  | nil => simp [actNodes, actChain, lastCursor, ← hprev]
  | cons s ss ih =>
    rw [List.map_cons, List.foldl_cons, stepAct_actLine st s hml]
    have h1 : handleActivity st (mkActL s) = { st with
        activities := st.activities ++
          actNodes st.current_swimlane 0 (chars "center") st.activity_id [s],
        transitions := st.transitions ++ [⟨p, actId st.activity_id, []⟩],
        prev_stack := some (actId st.activity_id) :: rest,
        activity_id := st.activity_id + 1 } := by
      simp [handleActivity, hprev, hdec, actNodes, branchSide]
    rw [h1]
    rw [ih _ (actId st.activity_id) (by simp [hml]) (by simp [hdec]) (by simp)]
    simp [actNodes, actChain, lastCursor, List.append_assoc]
    omega

theorem forkLoop (rest : List (List Str)) (st : ASt) (f : ForkFrame) (fs : List ForkFrame)
    (p : Str) (r : List (Option Str))
    (hml : st.multiline = none) (hdec : st.decision_stack = [])
    (hfork : st.fork_stack = f :: fs) (hprev : st.prev_stack = some p :: r)
    (hne : ∀ b ∈ rest, b ≠ []) :
    (forkBody rest).foldl stepAct st =
      { st with
        activities := st.activities ++ forkNodes st.current_swimlane st.activity_id rest ++
          [⟨joinId st.fork_id, [], chars "join", st.current_swimlane, 0, chars "center"⟩],
        transitions := st.transitions ++ forkChains f.id st.activity_id rest ++
          ((f.branches ++ some p :: (branchEndsP st.activity_id rest).map some).filterMap (fun b =>
            match b with
            | some bv => some (⟨bv, joinId st.fork_id, []⟩ : Transition)
            | none => none)),
        fork_stack := fs,
        fork_id := st.fork_id + 1,
        prev_stack := some (joinId st.fork_id) :: r,
        activity_id := st.activity_id + sumLens rest } := by
  induction rest generalizing st f p with
  | nil =>
    rw [forkBody, List.foldl_cons, List.foldl_nil, stepAct_endFork _ hml]
    simp [handleEndFork, hfork, hprev, forkNodes, forkChains, branchEndsP, sumLens]
  | cons b bs ih =>
    obtain ⟨x, xs, rfl⟩ := List.exists_cons_of_ne_nil (hne b (by simp))
    rw [forkBody, List.foldl_cons, stepAct_forkAgain _ hml]
    have h1 : handleForkAgain st = { st with
        fork_stack := { f with branches := f.branches ++ [some p] } :: fs,
        prev_stack := some f.id :: r } := by
      simp [handleForkAgain, hfork, hprev]
    rw [h1, List.foldl_append]
    rw [runActs_nodec0 (x :: xs) _ f.id r (by simp [hml]) (by simp [hdec]) (by simp)]
    rw [lastCursor, lastCursor_act xs st.activity_id (st.activity_id + 1) rfl]
    rw [ih _ { f with branches := f.branches ++ [some p] } (actId (st.activity_id + xs.length))
      (by simp [hml]) (by simp [hdec]) (by simp) (by simp) (fun bb hb => hne bb (by simp [hb]))]
    simp only [forkNodes, forkChains, branchEndsP, sumLens, List.append_assoc, List.cons_append,
      List.nil_append, List.length_cons, List.map_cons, ASt.mk.injEq]
    repeat' apply And.intro
    all_goals try trivial
    all_goals try omega
    all_goals congr 2 <;> try omega

theorem forkNodes_filter_atype (sw : Option Str) (k : Nat) (bss : List (List Str)) (t : Str)
    (h : ¬ chars "activity" = t) :
    (forkNodes sw k bss).filter (fun x => x.atype = t) = [] := by
  induction bss generalizing k with
  | nil => simp [forkNodes]
  | cons b bs ih => simp [forkNodes, List.filter_append, actNodes_filter_atype _ _ _ _ _ _ h, ih]

theorem forkChains_no_target (fid : Str) (k : Nat) (bss : List (List Str)) (t : Str)
    (h : ∀ j, actId j ≠ t) :
    (forkChains fid k bss).filter (fun x => x.target = t) = [] := by
  induction bss generalizing k with
  | nil => simp [forkChains]
  | cons b bs ih => simp [forkChains, List.filter_append, actChain_no_target _ _ _ _ h, ih]

theorem branchEndsP_length (k : Nat) (bss : List (List Str)) :
    (branchEndsP k bss).length = bss.length := by
  induction bss generalizing k with
  | nil => rfl
  | cons b bs ih => simp [branchEndsP, ih]

theorem filterMap_some_map (j : Str) (l : List Str) :
    (l.map some).filterMap (fun b =>
        match b with
        | some bv => some (⟨bv, j, []⟩ : Transition)
        | none => none) = l.map (fun e => (⟨e, j, []⟩ : Transition)) := by
  induction l with
  | nil => rfl
  | cons a as ih => simp [List.filterMap_cons, ih]

theorem filter_join_map (j : Str) (l : List Str) :
    (l.map (fun e => (⟨e, j, []⟩ : Transition))).filter (fun t => t.target = j) =
      l.map (fun e => (⟨e, j, []⟩ : Transition)) := by
  induction l with
  | nil => rfl
  | cons a as ih => simp [List.filter_cons, ih]

/-- Claim C2: for a `fork` / (`fork again` repeated k times) / `end fork`
block in which every parallel branch is a non-empty run of `:…;` activity
lines (so every branch ends live), the activity parser creates exactly one
join node, and its inbound transitions are exactly one per parallel branch
endpoint, appended in branch order: the endpoint of the first branch, then
the endpoint recorded at each `fork again`, k+1 in total. -/
theorem fork_join_law (b0 : List Str) (rest : List (List Str))
    (hb0 : b0 ≠ []) (hne : ∀ b ∈ rest, b ≠ []) :
    ((parse_activity (chars "start" :: chars "fork" ::
        (b0.map mkActL ++ forkBody rest))).activities.filter
      (fun x => x.atype = chars "join")).length = 1 ∧
    (parse_activity (chars "start" :: chars "fork" ::
        (b0.map mkActL ++ forkBody rest))).transitions.filter
      (fun t => t.target = joinId 1) =
      (actId (b0.length - 1) :: branchEndsP b0.length rest).map
        (fun e => (⟨e, joinId 1, []⟩ : Transition)) ∧
    ((parse_activity (chars "start" :: chars "fork" ::
        (b0.map mkActL ++ forkBody rest))).transitions.filter
      (fun t => t.target = joinId 1)).length = rest.length + 1 := by
  obtain ⟨x, xs, rfl⟩ := List.exists_cons_of_ne_nil hb0
  unfold parse_activity parseActivitySt
  rw [List.foldl_cons, List.foldl_cons, stepAct_start _ (by rfl)]
  rw [show handleStart actInit =
    ⟨[⟨chars "start", [], chars "start", none, 0, chars "center"⟩],
      [], [], none, [some (chars "start")], [], [], 0, 0, 0, none⟩ from by decide]
  rw [stepAct_fork _ (by rfl)]
  rw [show handleFork
      ⟨[⟨chars "start", [], chars "start", none, 0, chars "center"⟩],
        [], [], none, [some (chars "start")], [], [], 0, 0, 0, none⟩ =
    ⟨[⟨chars "start", [], chars "start", none, 0, chars "center"⟩,
       ⟨forkId 0, [], chars "fork", none, 0, chars "center"⟩],
      [⟨chars "start", forkId 0, []⟩], [], none, [some (forkId 0)], [],
      [⟨forkId 0, []⟩], 0, 1, 0, none⟩ from by decide]
  rw [List.foldl_append]
  rw [runActs_nodec0 (x :: xs) _ (forkId 0) [] (by rfl) (by rfl) (by rfl)]
  rw [lastCursor, lastCursor_act xs 0 1 rfl]
  rw [forkLoop rest _ ⟨forkId 0, []⟩ [] (actId (0 + xs.length)) []
    (by rfl) (by rfl) (by rfl) (by rfl) hne]
  simp only [List.filter_append, List.length_append, List.nil_append,
    List.filter_cons, List.length_cons]
  simp only [List.filterMap_cons, filterMap_some_map]
  refine ⟨?_, ?_, ?_⟩
  · rw [actNodes_filter_atype _ _ _ _ _ _ (by decide),
      forkNodes_filter_atype _ _ _ _ (by decide)]
    simp [show ¬ (chars "start" = chars "join") from by decide,
      show ¬ (chars "fork" = chars "join") from by decide]
  · rw [actChain_no_target _ _ _ _ (fun j => actId_ne_joinId j 1),
      forkChains_no_target _ _ _ _ (fun j => actId_ne_joinId j 1)]
    have hmap := filter_join_map (joinId 1)
      (actId (0 + xs.length) :: branchEndsP (0 + (xs.length + 1)) rest)
    simp only [List.map_cons] at hmap ⊢
    simp [hmap, show forkId 0 ≠ joinId 1 from forkId_ne_joinId 0 1]
  · rw [actChain_no_target _ _ _ _ (fun j => actId_ne_joinId j 1),
      forkChains_no_target _ _ _ _ (fun j => actId_ne_joinId j 1)]
    have hmap := filter_join_map (joinId 1)
      (actId (0 + xs.length) :: branchEndsP (0 + (xs.length + 1)) rest)
    simp only [List.map_cons] at hmap ⊢
    simp [hmap, show forkId 0 ≠ joinId 1 from forkId_ne_joinId 0 1]
    rw [filter_join_map (joinId 1) (branchEndsP (xs.length + 1) rest)]
    simp [branchEndsP_length]

theorem c1_partB (c y n : Str) (cs ds : List Str) (t : Str)
    (hc : c ≠ []) (hy : y ≠ []) (hn : n ≠ [])
    (hcp : noParen c) (hyp : noParen y) (hnp : noParen n) :
    ((parseActivitySt (chars "start" :: mkIfL c y ::
        (cs.map mkActL ++ (chars "stop" :: mkElseL n ::
          (ds.map mkActL ++ [chars "stop", chars "endif"]))))).activities.filter
      (fun x => x.atype = chars "merge")).length = 0 ∧
    (parseActivitySt (chars "start" :: mkIfL c y ::
        (cs.map mkActL ++ (chars "stop" :: mkElseL n ::
          (ds.map mkActL ++ [chars "stop", chars "endif"]))))).prev_stack =
      [some (chars "start")] ∧
    (parseActivitySt ((chars "start" :: mkIfL c y ::
        (cs.map mkActL ++ (chars "stop" :: mkElseL n ::
          (ds.map mkActL ++ [chars "stop", chars "endif"])))) ++ [mkActL t])).transitions =
      (parseActivitySt (chars "start" :: mkIfL c y ::
        (cs.map mkActL ++ (chars "stop" :: mkElseL n ::
          (ds.map mkActL ++ [chars "stop", chars "endif"]))))).transitions ++
        [⟨chars "start", actId (parseActivitySt (chars "start" :: mkIfL c y ::
          (cs.map mkActL ++ (chars "stop" :: mkElseL n ::
            (ds.map mkActL ++ [chars "stop", chars "endif"]))))).activity_id, []⟩] := by
  obtain ⟨acts, trs, k, hL, hF⟩ := c1_stateB c y n cs ds hc hy hn hcp hyp hnp
  have h2 : parseActivitySt ((chars "start" :: mkIfL c y ::
      (cs.map mkActL ++ (chars "stop" :: mkElseL n ::
        (ds.map mkActL ++ [chars "stop", chars "endif"])))) ++ [mkActL t]) =
      stepAct (parseActivitySt (chars "start" :: mkIfL c y ::
        (cs.map mkActL ++ (chars "stop" :: mkElseL n ::
          (ds.map mkActL ++ [chars "stop", chars "endif"]))))) (mkActL t) := by
    unfold parseActivitySt
    rw [List.foldl_append, List.foldl_cons, List.foldl_nil]
  refine ⟨?_, ?_, ?_⟩
  · rw [hL]
    simp [hF]
  · rw [hL]
  · rw [h2, hL, stepAct_actLine _ t (by rfl)]
    simp [handleActivity, branchSide]

/-- Counterexample to the second half of claim C1: after an
`if/stop/else/stop/endif` block the cursor is NOT empty — it still holds
the node that preceded the conditional (`start`), because `endif` pops the
saved pre-if cursor back; consequently the next activity line DOES receive
an inbound transition, from `start`. -/
theorem activity_both_stop_counterexample :
    (parseActivitySt [chars "start", chars "if (c) then (y)", chars "stop",
      chars "else (n)", chars "stop", chars "endif"]).prev_stack =
      [some (chars "start")] ∧
    (parseActivitySt [chars "start", chars "if (c) then (y)", chars "stop",
      chars "else (n)", chars "stop", chars "endif", chars ":w;"]).transitions =
      (parseActivitySt [chars "start", chars "if (c) then (y)", chars "stop",
        chars "else (n)", chars "stop", chars "endif"]).transitions ++
        [⟨chars "start", actId 1, []⟩] := by decide

/-- Claim C1 (amended): for an `if (c) then (y) … else (n) … endif` block
whose two branches are non-empty runs of `:…;` activity lines, exactly one
merge node is created, with exactly two inbound transitions, one from each
branch end.  If instead both branches end in `stop`, no merge node is
created, but the cursor does not become empty: `endif` restores the saved
pre-conditional cursor (`start` here), and a node following `endif`
receives an inbound transition from that pre-conditional node. -/
theorem activity_branch_merge_amended (c y n : Str)
    (hc : c ≠ []) (hy : y ≠ []) (hn : n ≠ [])
    (hcp : noParen c) (hyp : noParen y) (hnp : noParen n) :
    (∀ (a b : Str) (as' bs' : List Str),
      ((parse_activity (chars "start" :: mkIfL c y ::
          ((a :: as').map mkActL ++ (mkElseL n :: ((b :: bs').map mkActL ++
            [chars "endif"]))))).activities.filter
        (fun x => x.atype = chars "merge")).length = 1 ∧
      (parse_activity (chars "start" :: mkIfL c y ::
          ((a :: as').map mkActL ++ (mkElseL n :: ((b :: bs').map mkActL ++
            [chars "endif"]))))).transitions.filter
        (fun t => t.target = mergeId ((a :: as').length + (b :: bs').length + 1)) =
        [⟨actId (a :: as').length, mergeId ((a :: as').length + (b :: bs').length + 1), []⟩,
         ⟨actId ((a :: as').length + (b :: bs').length),
          mergeId ((a :: as').length + (b :: bs').length + 1), []⟩]) ∧
    (∀ (cs ds : List Str) (t : Str),
      ((parseActivitySt (chars "start" :: mkIfL c y ::
          (cs.map mkActL ++ (chars "stop" :: mkElseL n ::
            (ds.map mkActL ++ [chars "stop", chars "endif"]))))).activities.filter
        (fun x => x.atype = chars "merge")).length = 0 ∧
      (parseActivitySt (chars "start" :: mkIfL c y ::
          (cs.map mkActL ++ (chars "stop" :: mkElseL n ::
            (ds.map mkActL ++ [chars "stop", chars "endif"]))))).prev_stack =
        [some (chars "start")] ∧
      (parseActivitySt ((chars "start" :: mkIfL c y ::
          (cs.map mkActL ++ (chars "stop" :: mkElseL n ::
            (ds.map mkActL ++ [chars "stop", chars "endif"])))) ++ [mkActL t])).transitions =
        (parseActivitySt (chars "start" :: mkIfL c y ::
          (cs.map mkActL ++ (chars "stop" :: mkElseL n ::
            (ds.map mkActL ++ [chars "stop", chars "endif"]))))).transitions ++
          [⟨chars "start", actId (parseActivitySt (chars "start" :: mkIfL c y ::
            (cs.map mkActL ++ (chars "stop" :: mkElseL n ::
              (ds.map mkActL ++ [chars "stop", chars "endif"]))))).activity_id, []⟩]) :=
  ⟨fun a b as' bs' => ⟨c1_partA c y n a b as' bs' hc hy hn hcp hyp hnp,
    c1_partA2 c y n a b as' bs' hc hy hn hcp hyp hnp⟩,
   fun cs ds t => c1_partB c y n cs ds t hc hy hn hcp hyp hnp⟩

theorem activity_branch_merge_amended_witness :
    ((parse_activity (chars "start" :: mkIfL (chars "c") (chars "y") ::
        (([chars "A"]).map mkActL ++ (mkElseL (chars "n") :: (([chars "B"]).map mkActL ++
          [chars "endif"]))))).activities.filter
      (fun x => x.atype = chars "merge")).length = 1 ∧
    (parseActivitySt (chars "start" :: mkIfL (chars "c") (chars "y") ::
        (([] : List Str).map mkActL ++ (chars "stop" :: mkElseL (chars "n") ::
          (([] : List Str).map mkActL ++ [chars "stop", chars "endif"]))))).prev_stack =
      [some (chars "start")] := by
  have h := activity_branch_merge_amended (chars "c") (chars "y") (chars "n")
    (by decide) (by decide) (by decide)
    (by unfold noParen; decide) (by unfold noParen; decide) (by unfold noParen; decide)
  exact ⟨(h.1 (chars "A") (chars "B") [] []).1, (h.2 [] [] (chars "w")).2.1⟩

theorem fork_join_law_witness :
    ((parse_activity (chars "start" :: chars "fork" ::
        (([chars "A"]).map mkActL ++ forkBody [[chars "B"]]))).activities.filter
      (fun x => x.atype = chars "join")).length = 1 ∧
    (parse_activity (chars "start" :: chars "fork" ::
        (([chars "A"]).map mkActL ++ forkBody [[chars "B"]]))).transitions.filter
      (fun t => t.target = joinId 1) =
      (actId (([chars "A"]).length - 1) :: branchEndsP ([chars "A"]).length [[chars "B"]]).map
        (fun e => (⟨e, joinId 1, []⟩ : Transition)) ∧
    ((parse_activity (chars "start" :: chars "fork" ::
        (([chars "A"]).map mkActL ++ forkBody [[chars "B"]]))).transitions.filter
      (fun t => t.target = joinId 1)).length = ([[chars "B"]] : List (List Str)).length + 1 :=
  fork_join_law [chars "A"] [[chars "B"]] (by decide) (by decide)



theorem stepSeq_msgA (st : SeqSt) :
    stepSeq st msgL = { st with messages := st.messages ++ [msgRec],
                                message_index := st.message_index + 1 } := by rfl

theorem runMsgs (j : Nat) (st : SeqSt) :
    (List.replicate j msgL).foldl stepSeq st =
      { st with messages := st.messages ++ List.replicate j msgRec,
                message_index := st.message_index + j } := by
  induction j generalizing st with
  | zero => simp
  | succ j ih =>
    rw [List.replicate_succ, List.foldl_cons, stepSeq_msgA, ih]
    simp [List.replicate_succ]
    omega

theorem stepSeq_altL (lab : Str) (st : SeqSt) :
    stepSeq st (chars "alt " ++ lab) =
      { st with fragment_stack :=
          ⟨chars "alt", lab.dropWhile isWS, st.message_index,
           [⟨lab.dropWhile isWS, st.message_index⟩], none⟩ :: st.fragment_stack } := by rfl

theorem stepSeq_elseL (lab : Str) (st : SeqSt) (f : Fragment) (fs : List Fragment)
    (hfs : st.fragment_stack = f :: fs) :
    stepSeq st (chars "else " ++ lab) =
      { st with fragment_stack :=
          { f with sections := f.sections ++ [⟨pyStrip lab, st.message_index⟩] } :: fs } := by
  have hps : pyStrip (' ' :: lab) = pyStrip lab := by
    simp [pyStrip, List.dropWhile_cons, isWS]
  simp only [stepSeq]
  rw [show participantMatch (chars "else " ++ lab) = none from rfl]
  rw [show fragOpenMatch (chars "else " ++ lab) = none from rfl]
  rw [show pyStarts (chars "else") (chars "else " ++ lab) = true from rfl]
  simp only [if_true, hfs]
  rw [show (chars "else " ++ lab).drop 4 = ' ' :: lab from rfl, hps]

theorem stepSeq_endL (st : SeqSt) (f : Fragment) (fs : List Fragment)
    (hfs : st.fragment_stack = f :: fs) :
    stepSeq st (chars "end") =
      { st with fragment_stack := fs,
                fragments := st.fragments ++ [{ f with end_index := some st.message_index }] } := by
  simp only [stepSeq]
  rw [show participantMatch (chars "end") = none from rfl]
  rw [show fragOpenMatch (chars "end") = none from rfl]
  rw [show pyStarts (chars "else") (chars "end") = false from rfl]
  simp only [Bool.false_eq_true, if_false, hfs]
  simp

theorem fragSecsLoop_names (x w : Int) (ys : List Int) (ss : List FragSection) :
    ∀ (c i : Nat),
    ((fragSecsLoop c i x w ys ss).2.1).map (fun nd => nd.value) =
      ((ss.take (ys.length - i)).filter (fun s => s.label ≠ [])).map
        (fun s => '[' :: s.label ++ [']']) := by
  induction ss with
  | nil => intro c i; simp [fragSecsLoop]
  | cons s ss ih =>
    intro c i
    by_cases h : i < ys.length
    · have htake : ys.length - i = (ys.length - (i + 1)) + 1 := by omega
      by_cases hl : s.label = []
      · rcases hE : fragSecsLoop (c + 1) (i + 1) x w ys ss with ⟨c1, nds, eds⟩
        have hnds : nds.map (fun nd => nd.value) =
            ((ss.take (ys.length - (i + 1))).filter (fun s => s.label ≠ [])).map
              (fun s => '[' :: s.label ++ [']']) := by
          have h2 := ih (c + 1) (i + 1)
          rw [hE] at h2
          exact h2
        simp [fragSecsLoop, h, hl, hE, htake, List.filter_cons, hnds]
      · rcases hE : fragSecsLoop (c + 2) (i + 1) x w ys ss with ⟨c1, nds, eds⟩
        have hnds : nds.map (fun nd => nd.value) =
            ((ss.take (ys.length - (i + 1))).filter (fun s => s.label ≠ [])).map
              (fun s => '[' :: s.label ++ [']']) := by
          have h2 := ih (c + 2) (i + 1)
          rw [hE] at h2
          exact h2
        simp [fragSecsLoop, h, hl, hE, htake, List.filter_cons, hnds]
    · have htake : ys.length - i = 0 := by omega
      have htake2 : ys.length - (i + 1) = 0 := by omega
      have h2 := ih c (i + 1)
      rw [htake2] at h2
      simp [fragSecsLoop, h, htake, h2]

theorem add_fragment_section_labels (c : Nat) (ftype : Str) (x y w h : Int)
    (sections : List FragSection) (ys : List Int) :
    ((add_fragment c ftype x y w h sections ys).2.1).map (fun nd => nd.value) =
      (chars "<b>" ++ ftype ++ chars "</b>") :: ftype ::
        (((sections.drop 1).take (ys.length - 1)).filter (fun s => s.label ≠ [])).map
          (fun s => '[' :: s.label ++ [']']) := by
  rcases hE : fragSecsLoop (c + 2) 1 x w ys (sections.drop 1) with ⟨c1, nds, eds⟩
  have hnds := fragSecsLoop_names x w ys (sections.drop 1) (c + 2) 1
  rw [hE] at hnds
  simp only [List.drop_one] at hE hnds
  simp [add_fragment, hE, hnds]

theorem c4FragRecord (lab0 lab1 : Str) (k0 k1 k2 : Nat)
    (hl0 : lab0.dropWhile isWS = lab0) :
    (parse_sequence (List.replicate k0 msgL ++ (chars "alt " ++ lab0) ::
        (List.replicate k1 msgL ++ (chars "else " ++ lab1) ::
          (List.replicate k2 msgL ++ [chars "end"])))).fragments =
      [⟨chars "alt", lab0, k0, [⟨lab0, k0⟩, ⟨pyStrip lab1, k0 + k1⟩],
        some (k0 + k1 + k2)⟩] := by
  unfold parse_sequence
  rw [List.foldl_append, runMsgs, List.foldl_cons, stepSeq_altL]
  rw [List.foldl_append, runMsgs, List.foldl_cons]
  rw [stepSeq_elseL lab1 _
    ⟨chars "alt", lab0.dropWhile isWS, k0, [⟨lab0.dropWhile isWS, k0⟩], none⟩ [] (by simp)]
  rw [List.foldl_append, runMsgs, List.foldl_cons, List.foldl_nil]
  rw [stepSeq_endL _
    ⟨chars "alt", lab0.dropWhile isWS, k0,
      [⟨lab0.dropWhile isWS, k0⟩, ⟨pyStrip lab1, k0 + k1⟩], none⟩ [] (by simp)]
  simp [hl0]

/-- Counterexample to claim C4's generator half: the fragment records the
declared section labels `x>0` and `x<=0`, but the emitted document
contains no cell labelled `[x>0]` — `add_fragment` draws labels only for
`sections[1:]`, so the first declared section label is never emitted. -/
theorem fragment_first_label_counterexample :
    (parse_sequence [chars "alt x>0", chars "A -> B : m", chars "else x<=0",
        chars "A -> B : n", chars "end"]).fragments.map
      (fun f => f.sections.map (fun s => s.label)) =
      [[chars "x>0", chars "x<=0"]] ∧
    ((generate_sequence_diagram (parse_sequence [chars "alt x>0", chars "A -> B : m",
        chars "else x<=0", chars "A -> B : n", chars "end"]) 2).nodes.filter
      (fun nd => nd.value = chars "[x>0]")).length = 0 ∧
    ((generate_sequence_diagram (parse_sequence [chars "alt x>0", chars "A -> B : m",
        chars "else x<=0", chars "A -> B : n", chars "end"]) 2).nodes.filter
      (fun nd => nd.value = chars "[x<=0]")).length = 1 := by decide

/-- Claim C4 (amended): for an `alt`/`else`/`end` block wrapping messages
split at a section boundary, the parser records one fragment whose
sections carry the declared labels with start indices equal to the message
index at which each section opened (k0 and k0+k1 here) and whose end index
is the final message count; the emitted fragment container however labels
only the sections after the first — `add_fragment` draws `[label]` cells
for `sections[1:]` only, so the first declared section label never appears
in the output. -/
theorem fragment_sections_amended (lab0 lab1 : Str) (k0 k1 k2 : Nat)
    (hl0 : lab0.dropWhile isWS = lab0) :
    (parse_sequence (List.replicate k0 msgL ++ (chars "alt " ++ lab0) ::
        (List.replicate k1 msgL ++ (chars "else " ++ lab1) ::
          (List.replicate k2 msgL ++ [chars "end"])))).fragments =
      [⟨chars "alt", lab0, k0, [⟨lab0, k0⟩, ⟨pyStrip lab1, k0 + k1⟩],
        some (k0 + k1 + k2)⟩] ∧
    (∀ (c : Nat) (x y w h : Int) (ys : List Int), 2 ≤ ys.length → pyStrip lab1 ≠ [] →
      ((add_fragment c (chars "alt") x y w h
          [⟨lab0, k0⟩, ⟨pyStrip lab1, k0 + k1⟩] ys).2.1).map (fun nd => nd.value) =
        [chars "<b>alt</b>", chars "alt", '[' :: pyStrip lab1 ++ [']']]) := by
  refine ⟨c4FragRecord lab0 lab1 k0 k1 k2 hl0, ?_⟩
  intro c x y w h ys hys hlab1
  rw [add_fragment_section_labels]
  have hdrop : ([⟨lab0, k0⟩, ⟨pyStrip lab1, k0 + k1⟩] : List FragSection).drop 1 =
      [⟨pyStrip lab1, k0 + k1⟩] := rfl
  rw [hdrop, List.take_of_length_le (by simp; omega), List.filter_cons]
  simp [hlab1, chars]

theorem fragment_sections_amended_witness :
    (parse_sequence (List.replicate 0 msgL ++ (chars "alt " ++ chars "x>0") ::
        (List.replicate 1 msgL ++ (chars "else " ++ chars "x<=0") ::
          (List.replicate 1 msgL ++ [chars "end"])))).fragments =
      [⟨chars "alt", chars "x>0", 0, [⟨chars "x>0", 0⟩, ⟨pyStrip (chars "x<=0"), 0 + 1⟩],
        some (0 + 1 + 1)⟩] ∧
    ((add_fragment 2 (chars "alt") 0 0 100 100
        [⟨chars "x>0", 0⟩, ⟨pyStrip (chars "x<=0"), 0 + 1⟩] [0, 10]).2.1).map
      (fun nd => nd.value) =
      [chars "<b>alt</b>", chars "alt", '[' :: pyStrip (chars "x<=0") ++ [']']] := by
  have h := fragment_sections_amended (chars "x>0") (chars "x<=0") 0 1 1 (by decide)
  exact ⟨h.1, h.2 2 0 0 100 100 [0, 10] (by decide) (by decide)⟩

theorem classRelsLoop_dangling (posm : List (Str × Str)) (rel : ClassRel)
    (h : dget posm rel.source = none ∨ dget posm rel.target = none)
    (pre post : List ClassRel) : ∀ c,
    classRelsLoop c posm (pre ++ rel :: post) = classRelsLoop c posm (pre ++ post) := by
  induction pre with
  | nil =>
    intro c
    simp only [List.nil_append, classRelsLoop]
    rcases h with h | h
    · rw [h]
    · rcases hs : dget posm rel.source with _ | sid <;> rw [h]
  | cons r rs ih =>
    intro c
    simp only [List.cons_append, classRelsLoop, List.append_eq]
    rcases hs : dget posm r.source with _ | sid <;>
      rcases ht : dget posm r.target with _ | tid <;>
      simp only [ih]

theorem actEdgesLoop_dangling (ids : List (Str × Str)) (tr : Transition)
    (h : dget ids tr.source = none ∨ dget ids tr.target = none)
    (pre post : List Transition) : ∀ c,
    actEdgesLoop c ids (pre ++ tr :: post) = actEdgesLoop c ids (pre ++ post) := by
  induction pre with
  | nil =>
    intro c
    simp only [List.nil_append, actEdgesLoop]
    rcases h with h | h
    · rw [h]
    · rcases hs : dget ids tr.source with _ | sid <;> rw [h]
  | cons r rs ih =>
    intro c
    simp only [List.cons_append, actEdgesLoop, List.append_eq]
    rcases hs : dget ids r.source with _ | sid <;>
      rcases ht : dget ids r.target with _ | tid <;>
      simp only [ih]

/-- Claim C7: a parsed class relation or activity transition whose source
or target identifier does not resolve in the emitted-id dictionary
produces zero edges at emission time and raises no error, and the
remaining relations are emitted exactly as if the dangling one were absent
(the loop equations below delete the dangling entry without affecting any
other edge; nodes are produced before these loops and are untouched). -/
theorem dangling_reference_dropped :
    (∀ (posm : List (Str × Str)) (rel : ClassRel) (pre post : List ClassRel) (c : Nat),
      dget posm rel.source = none ∨ dget posm rel.target = none →
      classRelsLoop c posm (pre ++ rel :: post) = classRelsLoop c posm (pre ++ post)) ∧
    (∀ (ids : List (Str × Str)) (tr : Transition) (pre post : List Transition) (c : Nat),
      dget ids tr.source = none ∨ dget ids tr.target = none →
      actEdgesLoop c ids (pre ++ tr :: post) = actEdgesLoop c ids (pre ++ post)) :=
  ⟨fun posm rel pre post c h => classRelsLoop_dangling posm rel h pre post c,
   fun ids tr pre post c h => actEdgesLoop_dangling ids tr h pre post c⟩

theorem dangling_reference_dropped_witness :
    classRelsLoop 2 [(chars "A", chars "class_2")]
      ([⟨chars "A", chars "A", chars "association", []⟩] ++
        (⟨chars "A", chars "X", chars "inheritance", []⟩ : ClassRel) :: []) =
      classRelsLoop 2 [(chars "A", chars "class_2")]
        ([⟨chars "A", chars "A", chars "association", []⟩] ++ []) ∧
    actEdgesLoop 2 [(chars "start", chars "elem_2")]
      ([] ++ (⟨chars "start", chars "act_0", []⟩ : Transition) :: []) =
      actEdgesLoop 2 [(chars "start", chars "elem_2")] ([] ++ []) :=
  ⟨dangling_reference_dropped.1 [(chars "A", chars "class_2")]
      ⟨chars "A", chars "X", chars "inheritance", []⟩
      [⟨chars "A", chars "A", chars "association", []⟩] [] 2 (by decide),
   dangling_reference_dropped.2 [(chars "start", chars "elem_2")]
      ⟨chars "start", chars "act_0", []⟩ [] [] 2 (by decide)⟩

theorem dget_eq_none_of_keys_eq {α β : Type} (m1 : List (Str × α)) (m2 : List (Str × β))
    (hk : m1.map Prod.fst = m2.map Prod.fst) (k : Str) :
    dget m1 k = none ↔ dget m2 k = none := by
  induction m1 generalizing m2 with
  | nil =>
    cases m2 with
    | nil => simp [dget]
    | cons b bs => simp at hk
  | cons a as ih =>
    cases m2 with
    | nil => simp at hk
    | cons b bs =>
      simp only [List.map_cons, List.cons.injEq] at hk
      obtain ⟨h1, h2⟩ := hk
      by_cases he : a.1 = k
      · have hbe : b.1 = k := by rw [← h1]; exact he
        simp [dget, List.find?_cons, he, hbe]
      · have he2 : ¬ b.1 = k := by rw [← h1]; exact he
        have h3 := ih bs h2
        unfold dget at h3 ⊢
        rw [List.find?_cons_of_neg _ (by simp [he]), List.find?_cons_of_neg _ (by simp [he2])]
        exact h3

theorem classBoxesLoop_strip (cls : List UmlClass) : ∀ (c1 c2 i : Nat),
    ((classBoxesLoop c1 i cls).2.1).map stripN = ((classBoxesLoop c2 i cls).2.1).map stripN ∧
    ((classBoxesLoop c1 i cls).2.2).map Prod.fst = ((classBoxesLoop c2 i cls).2.2).map Prod.fst := by
  induction cls with
  | nil => intro c1 c2 i; simp [classBoxesLoop]
  | cons cl rest ih =>
    intro c1 c2 i
    obtain ⟨ih1, ih2⟩ := ih (c1 + 1) (c2 + 1) (i + 1)
    rcases hA : classBoxesLoop (c1 + 1) (i + 1) rest with ⟨a1, a2, a3⟩
    rcases hB : classBoxesLoop (c2 + 1) (i + 1) rest with ⟨b1, b2, b3⟩
    rw [hA, hB] at ih1 ih2
    simp [classBoxesLoop, add_class_box, hA, hB, stripN, ih1, ih2]

theorem ucPrimLoop_strip (acts : List UcActor) : ∀ (c1 c2 i : Nat),
    ((ucPrimLoop c1 i acts).2.1).map stripN = ((ucPrimLoop c2 i acts).2.1).map stripN ∧
    ((ucPrimLoop c1 i acts).2.2).map Prod.fst = ((ucPrimLoop c2 i acts).2.2).map Prod.fst := by
  induction acts with
  | nil => intro c1 c2 i; simp [ucPrimLoop]
  | cons a rest ih =>
    intro c1 c2 i
    obtain ⟨ih1, ih2⟩ := ih (c1 + 1) (c2 + 1) (i + 1)
    rcases hA : ucPrimLoop (c1 + 1) (i + 1) rest with ⟨a1, a2, a3⟩
    rcases hB : ucPrimLoop (c2 + 1) (i + 1) rest with ⟨b1, b2, b3⟩
    rw [hA, hB] at ih1 ih2
    simp [ucPrimLoop, add_actor, add_rectangle, hA, hB, stripN, ih1, ih2]

theorem ucSecLoop_strip (acts : List UcActor) : ∀ (c1 c2 i : Nat),
    ((ucSecLoop c1 i acts).2.1).map stripN = ((ucSecLoop c2 i acts).2.1).map stripN ∧
    ((ucSecLoop c1 i acts).2.2).map Prod.fst = ((ucSecLoop c2 i acts).2.2).map Prod.fst := by
  induction acts with
  | nil => intro c1 c2 i; simp [ucSecLoop]
  | cons a rest ih =>
    intro c1 c2 i
    obtain ⟨ih1, ih2⟩ := ih (c1 + 2) (c2 + 2) (i + 1)
    rcases hA : ucSecLoop (c1 + 2) (i + 1) rest with ⟨a1, a2, a3⟩
    rcases hB : ucSecLoop (c2 + 2) (i + 1) rest with ⟨b1, b2, b3⟩
    rw [hA, hB] at ih1 ih2
    simp [ucSecLoop, add_rectangle, hA, hB, stripN, ih1, ih2]

theorem ucCaseLoop_strip (ucs : List UseCaseRec) : ∀ (c1 c2 i : Nat),
    ((ucCaseLoop c1 i ucs).2.1).map stripN = ((ucCaseLoop c2 i ucs).2.1).map stripN ∧
    ((ucCaseLoop c1 i ucs).2.2).map Prod.fst = ((ucCaseLoop c2 i ucs).2.2).map Prod.fst := by
  induction ucs with
  | nil => intro c1 c2 i; simp [ucCaseLoop]
  | cons u rest ih =>
    intro c1 c2 i
    obtain ⟨ih1, ih2⟩ := ih (c1 + 1) (c2 + 1) (i + 1)
    rcases hA : ucCaseLoop (c1 + 1) (i + 1) rest with ⟨a1, a2, a3⟩
    rcases hB : ucCaseLoop (c2 + 1) (i + 1) rest with ⟨b1, b2, b3⟩
    rw [hA, hB] at ih1 ih2
    simp [ucCaseLoop, add_rectangle, hA, hB, stripN, ih1, ih2]

theorem lanesLoop_strip (lanes : List Str) : ∀ (c1 c2 i : Nat) (totalH : Int),
    ((lanesLoop c1 i totalH lanes).2.1).map stripN = ((lanesLoop c2 i totalH lanes).2.1).map stripN ∧
    (lanesLoop c1 i totalH lanes).2.2 = (lanesLoop c2 i totalH lanes).2.2 := by
  induction lanes with
  | nil => intro c1 c2 i totalH; simp [lanesLoop]
  | cons l rest ih =>
    intro c1 c2 i totalH
    obtain ⟨ih1, ih2⟩ := ih (c1 + 1) (c2 + 1) (i + 1) totalH
    rcases hA : lanesLoop (c1 + 1) (i + 1) totalH rest with ⟨a1, a2, a3⟩
    rcases hB : lanesLoop (c2 + 1) (i + 1) totalH rest with ⟨b1, b2, b3⟩
    rw [hA, hB] at ih1 ih2
    simp at ih1 ih2
    simp [lanesLoop, add_rectangle, hA, hB, stripN, ih1, ih2]

theorem actNodesLoop_strip (acts : List Activity) : ∀ (c1 c2 : Nat) (y : Int)
    (visited : List Str) (laneXs : List (Str × Int)),
    ((actNodesLoop c1 y visited laneXs acts).2.1).map stripN =
      ((actNodesLoop c2 y visited laneXs acts).2.1).map stripN ∧
    ((actNodesLoop c1 y visited laneXs acts).2.2).map Prod.fst =
      ((actNodesLoop c2 y visited laneXs acts).2.2).map Prod.fst := by
  induction acts with
  | nil => intro c1 c2 y visited laneXs; simp [actNodesLoop]
  | cons a rest ih =>
    intro c1 c2 y visited laneXs
    by_cases hv : visited.contains a.id
    · simp only [actNodesLoop, hv, if_true]
      exact ih c1 c2 y visited laneXs
    · by_cases h1 : a.atype = chars "start"
      · obtain ⟨ih1, ih2⟩ := ih (c1 + 1) (c2 + 1) (y + 50) (visited ++ [a.id]) laneXs
        rcases hA : actNodesLoop (c1 + 1) (y + 50) (visited ++ [a.id]) laneXs rest with ⟨a1, a2, a3⟩
        rcases hB : actNodesLoop (c2 + 1) (y + 50) (visited ++ [a.id]) laneXs rest with ⟨b1, b2, b3⟩
        rw [hA, hB] at ih1 ih2
        simp at ih1 ih2
        simp [actNodesLoop, show ¬ a.id ∈ visited from by simpa using hv, h1, add_rectangle, hA, hB, stripN, ih1, ih2]
      by_cases h2 : a.atype = chars "end"
      · obtain ⟨ih1, ih2⟩ := ih (c1 + 1) (c2 + 1) y (visited ++ [a.id]) laneXs
        rcases hA : actNodesLoop (c1 + 1) y (visited ++ [a.id]) laneXs rest with ⟨a1, a2, a3⟩
        rcases hB : actNodesLoop (c2 + 1) y (visited ++ [a.id]) laneXs rest with ⟨b1, b2, b3⟩
        rw [hA, hB] at ih1 ih2
        simp at ih1 ih2
        simp [actNodesLoop, show ¬ a.id ∈ visited from by simpa using hv, show ¬ chars "end" = chars "start" from by decide, h1, h2, add_rectangle, hA, hB, stripN, ih1, ih2]
      by_cases h3 : a.atype = chars "decision"
      · obtain ⟨ih1, ih2⟩ := ih (c1 + 1) (c2 + 1) (y + 80) (visited ++ [a.id]) laneXs
        rcases hA : actNodesLoop (c1 + 1) (y + 80) (visited ++ [a.id]) laneXs rest with ⟨a1, a2, a3⟩
        rcases hB : actNodesLoop (c2 + 1) (y + 80) (visited ++ [a.id]) laneXs rest with ⟨b1, b2, b3⟩
        rw [hA, hB] at ih1 ih2
        simp at ih1 ih2
        simp [actNodesLoop, show ¬ a.id ∈ visited from by simpa using hv, show ¬ chars "decision" = chars "start" from by decide, show ¬ chars "decision" = chars "end" from by decide, h1, h2, h3, add_rectangle, hA, hB, stripN, ih1, ih2]
      by_cases h4 : a.atype = chars "merge"
      · obtain ⟨ih1, ih2⟩ := ih (c1 + 1) (c2 + 1) (y + 50) (visited ++ [a.id]) laneXs
        rcases hA : actNodesLoop (c1 + 1) (y + 50) (visited ++ [a.id]) laneXs rest with ⟨a1, a2, a3⟩
        rcases hB : actNodesLoop (c2 + 1) (y + 50) (visited ++ [a.id]) laneXs rest with ⟨b1, b2, b3⟩
        rw [hA, hB] at ih1 ih2
        simp at ih1 ih2
        simp [actNodesLoop, show ¬ a.id ∈ visited from by simpa using hv, show ¬ chars "merge" = chars "start" from by decide, show ¬ chars "merge" = chars "end" from by decide, show ¬ chars "merge" = chars "decision" from by decide, h1, h2, h3, h4, add_rectangle, hA, hB, stripN, ih1, ih2]
      by_cases h5 : (a.atype = chars "fork" || a.atype = chars "join") = true
      · obtain ⟨ih1, ih2⟩ := ih (c1 + 1) (c2 + 1) (y + 50) (visited ++ [a.id]) laneXs
        rcases hA : actNodesLoop (c1 + 1) (y + 50) (visited ++ [a.id]) laneXs rest with ⟨a1, a2, a3⟩
        rcases hB : actNodesLoop (c2 + 1) (y + 50) (visited ++ [a.id]) laneXs rest with ⟨b1, b2, b3⟩
        rw [hA, hB] at ih1 ih2
        simp at ih1 ih2
        simp [actNodesLoop, show ¬ a.id ∈ visited from by simpa using hv, h1, h2, h3, h4, h5, add_rectangle, hA, hB, stripN, ih1, ih2]
      · obtain ⟨ih1, ih2⟩ := ih (c1 + 1) (c2 + 1) (y + 80) (visited ++ [a.id]) laneXs
        rcases hA : actNodesLoop (c1 + 1) (y + 80) (visited ++ [a.id]) laneXs rest with ⟨a1, a2, a3⟩
        rcases hB : actNodesLoop (c2 + 1) (y + 80) (visited ++ [a.id]) laneXs rest with ⟨b1, b2, b3⟩
        rw [hA, hB] at ih1 ih2
        simp at ih1 ih2
        simp [actNodesLoop, show ¬ a.id ∈ visited from by simpa using hv, h1, h2, h3, h4, h5, add_rectangle, hA, hB, stripN, ih1, ih2]

theorem seqPartsLoop_strip (rest : List Participant) : ∀ (c1 c2 i : Nat) (le : Int),
    ((seqPartsLoop c1 i le rest).2.1).map stripN = ((seqPartsLoop c2 i le rest).2.1).map stripN ∧
    ((seqPartsLoop c1 i le rest).2.2.1).map stripE = ((seqPartsLoop c2 i le rest).2.2.1).map stripE ∧
    (seqPartsLoop c1 i le rest).2.2.2.1 = (seqPartsLoop c2 i le rest).2.2.2.1 ∧
    (seqPartsLoop c1 i le rest).2.2.2.2 = (seqPartsLoop c2 i le rest).2.2.2.2 := by
  induction rest with
  | nil => intro c1 c2 i le; simp [seqPartsLoop]
  | cons p rest ih =>
    intro c1 c2 i le
    by_cases hp1 : p.ptype = chars "actor"
    · obtain ⟨ih1, ih2, ih3, ih4⟩ := ih (c1 + 2) (c2 + 2) (i + 1) le
      rcases hA : seqPartsLoop (c1 + 2) (i + 1) le rest with ⟨a1, a2, a3, a4, a5⟩
      rcases hB : seqPartsLoop (c2 + 2) (i + 1) le rest with ⟨b1, b2, b3, b4, b5⟩
      rw [hA, hB] at ih1 ih2 ih3 ih4
      simp at ih1 ih2 ih3 ih4
      simp [seqPartsLoop, hp1, add_actor, add_rectangle, hA, hB, stripN, stripE, ih1, ih2, ih3, ih4]
    by_cases hp2 : p.ptype = chars "database"
    · obtain ⟨ih1, ih2, ih3, ih4⟩ := ih (c1 + 2) (c2 + 2) (i + 1) le
      rcases hA : seqPartsLoop (c1 + 2) (i + 1) le rest with ⟨a1, a2, a3, a4, a5⟩
      rcases hB : seqPartsLoop (c2 + 2) (i + 1) le rest with ⟨b1, b2, b3, b4, b5⟩
      rw [hA, hB] at ih1 ih2 ih3 ih4
      simp at ih1 ih2 ih3 ih4
      simp [seqPartsLoop, show ¬ chars "database" = chars "actor" from by decide, hp1, hp2, add_actor, add_rectangle, hA, hB, stripN, stripE, ih1, ih2, ih3, ih4]
    · obtain ⟨ih1, ih2, ih3, ih4⟩ := ih (c1 + 2) (c2 + 2) (i + 1) le
      rcases hA : seqPartsLoop (c1 + 2) (i + 1) le rest with ⟨a1, a2, a3, a4, a5⟩
      rcases hB : seqPartsLoop (c2 + 2) (i + 1) le rest with ⟨b1, b2, b3, b4, b5⟩
      rw [hA, hB] at ih1 ih2 ih3 ih4
      simp at ih1 ih2 ih3 ih4
      simp [seqPartsLoop, hp1, hp2, add_actor, add_rectangle, hA, hB, stripN, stripE, ih1, ih2, ih3, ih4]

theorem dget_some_transfer {α β : Type} (m1 : List (Str × α)) (m2 : List (Str × β))
    (hk : m1.map Prod.fst = m2.map Prod.fst) (k : Str) (v : α) (h : dget m1 k = some v) :
    ∃ w, dget m2 k = some w := by
  rcases ho : dget m2 k with _ | w
  · rw [(dget_eq_none_of_keys_eq m1 m2 hk k).mpr ho] at h
    cases h
  · exact ⟨w, rfl⟩

theorem fragSecsLoop_strip (ss : List FragSection) : ∀ (c1 c2 i : Nat) (x w : Int) (ys : List Int),
    ((fragSecsLoop c1 i x w ys ss).2.1).map stripN = ((fragSecsLoop c2 i x w ys ss).2.1).map stripN ∧
    ((fragSecsLoop c1 i x w ys ss).2.2).map stripE = ((fragSecsLoop c2 i x w ys ss).2.2).map stripE := by
  induction ss with
  | nil => intro c1 c2 i x w ys; simp [fragSecsLoop]
  | cons s rest ih =>
    intro c1 c2 i x w ys
    by_cases hy : i < ys.length
    · by_cases hl : s.label = []
      · obtain ⟨ih1, ih2⟩ := ih (c1 + 1) (c2 + 1) (i + 1) x w ys
        rcases hA : fragSecsLoop (c1 + 1) (i + 1) x w ys rest with ⟨a1, a2, a3⟩
        rcases hB : fragSecsLoop (c2 + 1) (i + 1) x w ys rest with ⟨b1, b2, b3⟩
        rw [hA, hB] at ih1 ih2
        simp at ih1 ih2
        simp [fragSecsLoop, hy, hl, hA, hB, stripN, stripE, ih1, ih2]
      · obtain ⟨ih1, ih2⟩ := ih (c1 + 2) (c2 + 2) (i + 1) x w ys
        rcases hA : fragSecsLoop (c1 + 2) (i + 1) x w ys rest with ⟨a1, a2, a3⟩
        rcases hB : fragSecsLoop (c2 + 2) (i + 1) x w ys rest with ⟨b1, b2, b3⟩
        rw [hA, hB] at ih1 ih2
        simp at ih1 ih2
        simp [fragSecsLoop, hy, hl, hA, hB, stripN, stripE, ih1, ih2]
    · obtain ⟨ih1, ih2⟩ := ih c1 c2 (i + 1) x w ys
      simp [fragSecsLoop, hy, ih1, ih2]

theorem add_fragment_strip (c1 c2 : Nat) (ftype : Str) (x y w h : Int)
    (sections : List FragSection) (ys : List Int) :
    ((add_fragment c1 ftype x y w h sections ys).2.1).map stripN =
      ((add_fragment c2 ftype x y w h sections ys).2.1).map stripN ∧
    ((add_fragment c1 ftype x y w h sections ys).2.2).map stripE =
      ((add_fragment c2 ftype x y w h sections ys).2.2).map stripE := by
  obtain ⟨h1, h2⟩ := fragSecsLoop_strip (sections.drop 1) (c1 + 2) (c2 + 2) 1 x w ys
  rcases hA : fragSecsLoop (c1 + 2) 1 x w ys (sections.drop 1) with ⟨a1, a2, a3⟩
  rcases hB : fragSecsLoop (c2 + 2) 1 x w ys (sections.drop 1) with ⟨b1, b2, b3⟩
  rw [hA, hB] at h1 h2
  simp only [List.drop_one] at hA hB
  simp at h1 h2
  simp [add_fragment, hA, hB, stripN, h1, h2]

theorem seqFragsLoop_strip (fr : List Fragment) : ∀ (c1 c2 : Nat) (fx fw : Int)
    (ys : List Int) (n : Nat),
    ((seqFragsLoop c1 fx fw ys n fr).2.1).map stripN =
      ((seqFragsLoop c2 fx fw ys n fr).2.1).map stripN ∧
    ((seqFragsLoop c1 fx fw ys n fr).2.2).map stripE =
      ((seqFragsLoop c2 fx fw ys n fr).2.2).map stripE := by
  induction fr with
  | nil => intro c1 c2 fx fw ys n; simp [seqFragsLoop]
  | cons f rest ih =>
    intro c1 c2 fx fw ys n
    by_cases hs : f.start_index < n
    · rcases hFA : add_fragment c1 f.ftype fx (ys.getD f.start_index 0 - 25) fw
        (if f.end_index.getD 0 < n then ys.getD (f.end_index.getD 0) 0 - (ys.getD f.start_index 0 - 25) + 25
         else ((n - f.start_index : Nat) : Int) * 50 + 25) f.sections
        ((ys.getD f.start_index 0 - 25) :: (f.sections.drop 1).filterMap (fun s =>
          if s.start_index < n then some (ys.getD s.start_index 0 - 10) else none))
        with ⟨fa1, fa2, fa3⟩
      rcases hFB : add_fragment c2 f.ftype fx (ys.getD f.start_index 0 - 25) fw
        (if f.end_index.getD 0 < n then ys.getD (f.end_index.getD 0) 0 - (ys.getD f.start_index 0 - 25) + 25
         else ((n - f.start_index : Nat) : Int) * 50 + 25) f.sections
        ((ys.getD f.start_index 0 - 25) :: (f.sections.drop 1).filterMap (fun s =>
          if s.start_index < n then some (ys.getD s.start_index 0 - 10) else none))
        with ⟨fb1, fb2, fb3⟩
      obtain ⟨hf1, hf2⟩ := add_fragment_strip c1 c2 f.ftype fx (ys.getD f.start_index 0 - 25) fw
        (if f.end_index.getD 0 < n then ys.getD (f.end_index.getD 0) 0 - (ys.getD f.start_index 0 - 25) + 25
         else ((n - f.start_index : Nat) : Int) * 50 + 25) f.sections
        ((ys.getD f.start_index 0 - 25) :: (f.sections.drop 1).filterMap (fun s =>
          if s.start_index < n then some (ys.getD s.start_index 0 - 10) else none))
      rw [hFA, hFB] at hf1 hf2
      simp only [List.getD_eq_getElem?_getD, List.drop_one] at hFA hFB
      simp at hf1 hf2
      obtain ⟨ih1, ih2⟩ := ih fa1 fb1 fx fw ys n
      rcases hA : seqFragsLoop fa1 fx fw ys n rest with ⟨a1, a2, a3⟩
      rcases hB : seqFragsLoop fb1 fx fw ys n rest with ⟨b1, b2, b3⟩
      rw [hA, hB] at ih1 ih2
      simp at ih1 ih2
      simp [seqFragsLoop, hs, hFA, hFB, hA, hB, hf1, hf2, ih1, ih2]
    · obtain ⟨ih1, ih2⟩ := ih c1 c2 fx fw ys n
      simp [seqFragsLoop, hs, ih1, ih2]

theorem seqMsgsLoop_strip (ms : List Message) : ∀ (c1 c2 i : Nat)
    (pos : List (Str × Int × Int)) (ys : List Int),
    ((seqMsgsLoop c1 i pos ys ms).2).map stripE = ((seqMsgsLoop c2 i pos ys ms).2).map stripE := by
  induction ms with
  | nil => intro c1 c2 i pos ys; simp [seqMsgsLoop]
  | cons m rest ih =>
    intro c1 c2 i pos ys
    rcases hs : dget pos m.source with _ | s0
    · simp only [seqMsgsLoop]
      rw [hs]
      exact ih c1 c2 (i + 1) pos ys
    · rcases ht : dget pos m.target with _ | t0
      · simp only [seqMsgsLoop]
        rw [hs, ht]
        exact ih c1 c2 (i + 1) pos ys
      · rcases hA : seqMsgsLoop (c1 + 1) (i + 1) pos ys rest with ⟨a1, a2⟩
        rcases hB : seqMsgsLoop (c2 + 1) (i + 1) pos ys rest with ⟨b1, b2⟩
        have ihe := ih (c1 + 1) (c2 + 1) (i + 1) pos ys
        rw [hA, hB] at ihe
        simp at ihe
        simp [seqMsgsLoop, hs, ht, add_arrow_with_points, hA, hB, stripE, ihe]

theorem classRelsLoop_strip (rels : List ClassRel) : ∀ (c1 c2 : Nat)
    (m1 m2 : List (Str × Str)), m1.map Prod.fst = m2.map Prod.fst →
    ((classRelsLoop c1 m1 rels).2).map stripE = ((classRelsLoop c2 m2 rels).2).map stripE := by
  induction rels with
  | nil => intro c1 c2 m1 m2 hk; simp [classRelsLoop]
  | cons rel rest ih =>
    intro c1 c2 m1 m2 hk
    rcases hs1 : dget m1 rel.source with _ | s1
    · have hs2 : dget m2 rel.source = none :=
        (dget_eq_none_of_keys_eq m1 m2 hk rel.source).mp hs1
      simp only [classRelsLoop]
      rw [hs1, hs2]
      exact ih c1 c2 m1 m2 hk
    · obtain ⟨s2, hs2⟩ := dget_some_transfer m1 m2 hk rel.source s1 hs1
      rcases ht1 : dget m1 rel.target with _ | t1
      · have ht2 : dget m2 rel.target = none :=
          (dget_eq_none_of_keys_eq m1 m2 hk rel.target).mp ht1
        simp only [classRelsLoop]
        rw [hs1, hs2, ht1, ht2]
        exact ih c1 c2 m1 m2 hk
      · obtain ⟨t2, ht2⟩ := dget_some_transfer m1 m2 hk rel.target t1 ht1
        rcases hA : classRelsLoop (c1 + 1) m1 rest with ⟨a1, a2⟩
        rcases hB : classRelsLoop (c2 + 1) m2 rest with ⟨b1, b2⟩
        have ihe := ih (c1 + 1) (c2 + 1) m1 m2 hk
        rw [hA, hB] at ihe
        simp at ihe
        simp [classRelsLoop, hs1, hs2, ht1, ht2, add_arrow, hA, hB, stripE, ihe]

theorem ucRelsLoop_strip (rels : List UcRel) : ∀ (c1 c2 : Nat)
    (m1 m2 : List (Str × Str)), m1.map Prod.fst = m2.map Prod.fst →
    ((ucRelsLoop c1 m1 rels).2).map stripE = ((ucRelsLoop c2 m2 rels).2).map stripE := by
  induction rels with
  | nil => intro c1 c2 m1 m2 hk; simp [ucRelsLoop]
  | cons rel rest ih =>
    intro c1 c2 m1 m2 hk
    rcases hs1 : dget m1 rel.source with _ | s1
    · have hs2 : dget m2 rel.source = none :=
        (dget_eq_none_of_keys_eq m1 m2 hk rel.source).mp hs1
      simp only [ucRelsLoop]
      rw [hs1, hs2]
      exact ih c1 c2 m1 m2 hk
    · obtain ⟨s2, hs2⟩ := dget_some_transfer m1 m2 hk rel.source s1 hs1
      rcases ht1 : dget m1 rel.target with _ | t1
      · have ht2 : dget m2 rel.target = none :=
          (dget_eq_none_of_keys_eq m1 m2 hk rel.target).mp ht1
        simp only [ucRelsLoop]
        rw [hs1, hs2, ht1, ht2]
        exact ih c1 c2 m1 m2 hk
      · obtain ⟨t2, ht2⟩ := dget_some_transfer m1 m2 hk rel.target t1 ht1
        rcases hA : ucRelsLoop (c1 + 1) m1 rest with ⟨a1, a2⟩
        rcases hB : ucRelsLoop (c2 + 1) m2 rest with ⟨b1, b2⟩
        have ihe := ih (c1 + 1) (c2 + 1) m1 m2 hk
        rw [hA, hB] at ihe
        simp at ihe
        simp [ucRelsLoop, hs1, hs2, ht1, ht2, add_arrow, hA, hB, stripE, ihe]

theorem actEdgesLoop_strip (trs : List Transition) : ∀ (c1 c2 : Nat)
    (m1 m2 : List (Str × Str)), m1.map Prod.fst = m2.map Prod.fst →
    ((actEdgesLoop c1 m1 trs).2).map stripE = ((actEdgesLoop c2 m2 trs).2).map stripE := by
  induction trs with
  | nil => intro c1 c2 m1 m2 hk; simp [actEdgesLoop]
  | cons tr rest ih =>
    intro c1 c2 m1 m2 hk
    rcases hs1 : dget m1 tr.source with _ | s1
    · have hs2 : dget m2 tr.source = none :=
        (dget_eq_none_of_keys_eq m1 m2 hk tr.source).mp hs1
      simp only [actEdgesLoop]
      rw [hs1, hs2]
      exact ih c1 c2 m1 m2 hk
    · obtain ⟨s2, hs2⟩ := dget_some_transfer m1 m2 hk tr.source s1 hs1
      rcases ht1 : dget m1 tr.target with _ | t1
      · have ht2 : dget m2 tr.target = none :=
          (dget_eq_none_of_keys_eq m1 m2 hk tr.target).mp ht1
        simp only [actEdgesLoop]
        rw [hs1, hs2, ht1, ht2]
        exact ih c1 c2 m1 m2 hk
      · obtain ⟨t2, ht2⟩ := dget_some_transfer m1 m2 hk tr.target t1 ht1
        rcases hA : actEdgesLoop (c1 + 1) m1 rest with ⟨a1, a2⟩
        rcases hB : actEdgesLoop (c2 + 1) m2 rest with ⟨b1, b2⟩
        have ihe := ih (c1 + 1) (c2 + 1) m1 m2 hk
        rw [hA, hB] at ihe
        simp at ihe
        simp [actEdgesLoop, hs1, hs2, ht1, ht2, add_arrow, hA, hB, stripE, ihe]

theorem generate_class_strip (data : ClassModel) (c1 c2 : Nat) :
    stripDoc (generate_class_diagram data c1) = stripDoc (generate_class_diagram data c2) := by
  have hB := classBoxesLoop_strip data.classes c1 c2 0
  rcases hBA : classBoxesLoop c1 0 data.classes with ⟨a1, a2, a3⟩
  rcases hBB : classBoxesLoop c2 0 data.classes with ⟨b1, b2, b3⟩
  rw [hBA, hBB] at hB
  simp at hB
  obtain ⟨h1, h2⟩ := hB
  have hR := classRelsLoop_strip data.relations a1 b1 a3 b3 h2
  rcases hRA : classRelsLoop a1 a3 data.relations with ⟨ra1, ra2⟩
  rcases hRB : classRelsLoop b1 b3 data.relations with ⟨rb1, rb2⟩
  rw [hRA, hRB] at hR
  simp at hR
  simp [generate_class_diagram, stripDoc, hBA, hBB, hRA, hRB, h1, hR]

theorem generate_activity_strip (data : ActModel) (c1 c2 : Nat) :
    stripDoc (generate_activity_diagram data c1) = stripDoc (generate_activity_diagram data c2) := by
  by_cases hsw : data.swimlanes ≠ []
  · have hL := lanesLoop_strip data.swimlanes c1 c2 0
      (100 + (data.activities.length : Int) * 80 + 200)
    rcases hLA : lanesLoop c1 0 (100 + (data.activities.length : Int) * 80 + 200) data.swimlanes
      with ⟨la1, la2, la3⟩
    rcases hLB : lanesLoop c2 0 (100 + (data.activities.length : Int) * 80 + 200) data.swimlanes
      with ⟨lb1, lb2, lb3⟩
    rw [hLA, hLB] at hL
    simp at hL
    obtain ⟨hl1, hl2⟩ := hL
    subst hl2
    have hN := actNodesLoop_strip data.activities la1 lb1 130 [] la3
    rcases hNA : actNodesLoop la1 130 [] la3 data.activities with ⟨na1, na2, na3⟩
    rcases hNB : actNodesLoop lb1 130 [] la3 data.activities with ⟨nb1, nb2, nb3⟩
    rw [hNA, hNB] at hN
    simp at hN
    obtain ⟨hn1, hn2⟩ := hN
    have hE := actEdgesLoop_strip data.transitions na1 nb1 na3 nb3 hn2
    rcases hEA : actEdgesLoop na1 na3 data.transitions with ⟨ea1, ea2⟩
    rcases hEB : actEdgesLoop nb1 nb3 data.transitions with ⟨eb1, eb2⟩
    rw [hEA, hEB] at hE
    simp at hE
    simp [generate_activity_diagram, stripDoc, hsw, hLA, hLB, hNA, hNB, hEA, hEB, hl1, hn1, hE]
  · have hN := actNodesLoop_strip data.activities c1 c2 100 [] []
    rcases hNA : actNodesLoop c1 100 [] [] data.activities with ⟨na1, na2, na3⟩
    rcases hNB : actNodesLoop c2 100 [] [] data.activities with ⟨nb1, nb2, nb3⟩
    rw [hNA, hNB] at hN
    simp at hN
    obtain ⟨hn1, hn2⟩ := hN
    have hE := actEdgesLoop_strip data.transitions na1 nb1 na3 nb3 hn2
    rcases hEA : actEdgesLoop na1 na3 data.transitions with ⟨ea1, ea2⟩
    rcases hEB : actEdgesLoop nb1 nb3 data.transitions with ⟨eb1, eb2⟩
    rw [hEA, hEB] at hE
    simp at hE
    simp [generate_activity_diagram, stripDoc, hsw, hNA, hNB, hn1, hEA, hEB, hE]

theorem generate_usecase_strip (data : UcModel) (c1 c2 : Nat) :
    stripDoc (generate_usecase_diagram data c1) = stripDoc (generate_usecase_diagram data c2) := by
  rcases hsn : data.system_name with _ | nm
  · have hP := ucPrimLoop_strip (data.actors.filter (fun a => !a.is_secondary)) c1 c2 0
    rcases hPA : ucPrimLoop c1 0 (data.actors.filter (fun a => !a.is_secondary)) with ⟨pa1, pa2, pa3⟩
    rcases hPB : ucPrimLoop c2 0 (data.actors.filter (fun a => !a.is_secondary)) with ⟨pb1, pb2, pb3⟩
    rw [hPA, hPB] at hP
    simp at hP
    obtain ⟨hp1, hp2⟩ := hP
    have hS := ucSecLoop_strip (data.actors.filter (fun a => a.is_secondary)) pa1 pb1 0
    rcases hSA : ucSecLoop pa1 0 (data.actors.filter (fun a => a.is_secondary)) with ⟨sa1, sa2, sa3⟩
    rcases hSB : ucSecLoop pb1 0 (data.actors.filter (fun a => a.is_secondary)) with ⟨sb1, sb2, sb3⟩
    rw [hSA, hSB] at hS
    simp at hS
    obtain ⟨hs1, hs2⟩ := hS
    have hC := ucCaseLoop_strip data.usecases sa1 sb1 0
    rcases hCA : ucCaseLoop sa1 0 data.usecases with ⟨ca1, ca2, ca3⟩
    rcases hCB : ucCaseLoop sb1 0 data.usecases with ⟨cb1, cb2, cb3⟩
    rw [hCA, hCB] at hC
    simp at hC
    obtain ⟨hc1, hc2⟩ := hC
    have hk : ((ca3 ++ (sa3 ++ pa3)).map Prod.fst) = ((cb3 ++ (sb3 ++ pb3)).map Prod.fst) := by
      simp [hc2, hs2, hp2]
    have hR := ucRelsLoop_strip data.relations ca1 cb1 (ca3 ++ (sa3 ++ pa3)) (cb3 ++ (sb3 ++ pb3)) hk
    rcases hRA : ucRelsLoop ca1 (ca3 ++ (sa3 ++ pa3)) data.relations with ⟨ra1, ra2⟩
    rcases hRB : ucRelsLoop cb1 (cb3 ++ (sb3 ++ pb3)) data.relations with ⟨rb1, rb2⟩
    rw [hRA, hRB] at hR
    simp at hR
    simp [generate_usecase_diagram, stripDoc, hsn, add_rectangle, stripN,
      hPA, hPB, hSA, hSB, hCA, hCB, hRA, hRB, hp1, hs1, hc1, hR]
  · by_cases hcond : nm ≠ [] ∧ data.usecases ≠ []
    · have hP := ucPrimLoop_strip (data.actors.filter (fun a => !a.is_secondary)) (c1 + 1) (c2 + 1) 0
      rcases hPA : ucPrimLoop (c1 + 1) 0 (data.actors.filter (fun a => !a.is_secondary)) with ⟨pa1, pa2, pa3⟩
      rcases hPB : ucPrimLoop (c2 + 1) 0 (data.actors.filter (fun a => !a.is_secondary)) with ⟨pb1, pb2, pb3⟩
      rw [hPA, hPB] at hP
      simp at hP
      obtain ⟨hp1, hp2⟩ := hP
      have hS := ucSecLoop_strip (data.actors.filter (fun a => a.is_secondary)) pa1 pb1 0
      rcases hSA : ucSecLoop pa1 0 (data.actors.filter (fun a => a.is_secondary)) with ⟨sa1, sa2, sa3⟩
      rcases hSB : ucSecLoop pb1 0 (data.actors.filter (fun a => a.is_secondary)) with ⟨sb1, sb2, sb3⟩
      rw [hSA, hSB] at hS
      simp at hS
      obtain ⟨hs1, hs2⟩ := hS
      have hC := ucCaseLoop_strip data.usecases sa1 sb1 0
      rcases hCA : ucCaseLoop sa1 0 data.usecases with ⟨ca1, ca2, ca3⟩
      rcases hCB : ucCaseLoop sb1 0 data.usecases with ⟨cb1, cb2, cb3⟩
      rw [hCA, hCB] at hC
      simp at hC
      obtain ⟨hc1, hc2⟩ := hC
      have hk : ((ca3 ++ (sa3 ++ pa3)).map Prod.fst) = ((cb3 ++ (sb3 ++ pb3)).map Prod.fst) := by
        simp [hc2, hs2, hp2]
      have hR := ucRelsLoop_strip data.relations ca1 cb1 (ca3 ++ (sa3 ++ pa3)) (cb3 ++ (sb3 ++ pb3)) hk
      rcases hRA : ucRelsLoop ca1 (ca3 ++ (sa3 ++ pa3)) data.relations with ⟨ra1, ra2⟩
      rcases hRB : ucRelsLoop cb1 (cb3 ++ (sb3 ++ pb3)) data.relations with ⟨rb1, rb2⟩
      rw [hRA, hRB] at hR
      simp at hR
      simp [generate_usecase_diagram, stripDoc, hsn, hcond.1, hcond.2, add_rectangle, stripN,
        hPA, hPB, hSA, hSB, hCA, hCB, hRA, hRB, hp1, hs1, hc1, hR]
    · have hP := ucPrimLoop_strip (data.actors.filter (fun a => !a.is_secondary)) c1 c2 0
      rcases hPA : ucPrimLoop c1 0 (data.actors.filter (fun a => !a.is_secondary)) with ⟨pa1, pa2, pa3⟩
      rcases hPB : ucPrimLoop c2 0 (data.actors.filter (fun a => !a.is_secondary)) with ⟨pb1, pb2, pb3⟩
      rw [hPA, hPB] at hP
      simp at hP
      obtain ⟨hp1, hp2⟩ := hP
      have hS := ucSecLoop_strip (data.actors.filter (fun a => a.is_secondary)) pa1 pb1 0
      rcases hSA : ucSecLoop pa1 0 (data.actors.filter (fun a => a.is_secondary)) with ⟨sa1, sa2, sa3⟩
      rcases hSB : ucSecLoop pb1 0 (data.actors.filter (fun a => a.is_secondary)) with ⟨sb1, sb2, sb3⟩
      rw [hSA, hSB] at hS
      simp at hS
      obtain ⟨hs1, hs2⟩ := hS
      have hC := ucCaseLoop_strip data.usecases sa1 sb1 0
      rcases hCA : ucCaseLoop sa1 0 data.usecases with ⟨ca1, ca2, ca3⟩
      rcases hCB : ucCaseLoop sb1 0 data.usecases with ⟨cb1, cb2, cb3⟩
      rw [hCA, hCB] at hC
      simp at hC
      obtain ⟨hc1, hc2⟩ := hC
      have hk : ((ca3 ++ (sa3 ++ pa3)).map Prod.fst) = ((cb3 ++ (sb3 ++ pb3)).map Prod.fst) := by
        simp [hc2, hs2, hp2]
      have hR := ucRelsLoop_strip data.relations ca1 cb1 (ca3 ++ (sa3 ++ pa3)) (cb3 ++ (sb3 ++ pb3)) hk
      rcases hRA : ucRelsLoop ca1 (ca3 ++ (sa3 ++ pa3)) data.relations with ⟨ra1, ra2⟩
      rcases hRB : ucRelsLoop cb1 (cb3 ++ (sb3 ++ pb3)) data.relations with ⟨rb1, rb2⟩
      rw [hRA, hRB] at hR
      simp at hR
      simp [generate_usecase_diagram, stripDoc, hsn, hcond, add_rectangle, stripN,
        hPA, hPB, hSA, hSB, hCA, hCB, hRA, hRB, hp1, hs1, hc1, hR]

theorem generate_sequence_strip (data : SeqModel) (c1 c2 : Nat) :
    stripDoc (generate_sequence_diagram data c1) = stripDoc (generate_sequence_diagram data c2) := by
  have hP := seqPartsLoop_strip
    (if data.participants = [] then inferParticipants data.messages else data.participants)
    c1 c2 0 (180 + 50 * (data.messages.length : Int) + 50)
  rcases hPA : seqPartsLoop c1 0 (180 + 50 * (data.messages.length : Int) + 50)
      (if data.participants = [] then inferParticipants data.messages else data.participants)
    with ⟨pa1, pa2, pa3, pa4, pa5⟩
  rcases hPB : seqPartsLoop c2 0 (180 + 50 * (data.messages.length : Int) + 50)
      (if data.participants = [] then inferParticipants data.messages else data.participants)
    with ⟨pb1, pb2, pb3, pb4, pb5⟩
  rw [hPA, hPB] at hP
  simp at hP
  obtain ⟨hp1, hp2, hp3, hp4⟩ := hP
  subst hp3
  subst hp4
  by_cases hxs : pa5 ≠ []
  · rcases hFA : seqFragsLoop pa1 (listMin pa5 - 60) (listMax pa5 - listMin pa5 + 120)
        (msgYs data.messages.length) data.messages.length data.fragments with ⟨fa1, fa2, fa3⟩
    rcases hFB : seqFragsLoop pb1 (listMin pa5 - 60) (listMax pa5 - listMin pa5 + 120)
        (msgYs data.messages.length) data.messages.length data.fragments with ⟨fb1, fb2, fb3⟩
    have hF := seqFragsLoop_strip data.fragments pa1 pb1 (listMin pa5 - 60)
      (listMax pa5 - listMin pa5 + 120) (msgYs data.messages.length) data.messages.length
    rw [hFA, hFB] at hF
    simp at hF
    obtain ⟨hf1, hf2⟩ := hF
    have hM := seqMsgsLoop_strip data.messages fa1 fb1 0 pa4 (msgYs data.messages.length)
    rcases hMA : seqMsgsLoop fa1 0 pa4 (msgYs data.messages.length) data.messages with ⟨ma1, ma2⟩
    rcases hMB : seqMsgsLoop fb1 0 pa4 (msgYs data.messages.length) data.messages with ⟨mb1, mb2⟩
    rw [hMA, hMB] at hM
    simp at hM
    simp [generate_sequence_diagram, stripDoc, hPA, hPB, hxs, hFA, hFB, hMA, hMB,
      hp1, hp2, hf1, hf2, hM]
  · have hM := seqMsgsLoop_strip data.messages pa1 pb1 0 pa4 (msgYs data.messages.length)
    rcases hMA : seqMsgsLoop pa1 0 pa4 (msgYs data.messages.length) data.messages with ⟨ma1, ma2⟩
    rcases hMB : seqMsgsLoop pb1 0 pa4 (msgYs data.messages.length) data.messages with ⟨mb1, mb2⟩
    rw [hMA, hMB] at hM
    simp at hM
    simp [generate_sequence_diagram, stripDoc, hPA, hPB, hxs, hMA, hMB, hp1, hp2, hM]

/-- Claim C9: the full pipeline (classify, parse, layout, emit) is a pure
function of the input text plus the cell-identifier counter; two runs on
identical text, whatever the counter states, produce documents that are
identical after erasing the generated identifiers — same nodes in the same
order with the same labels, styles and geometry, and same edges with the
same labels, styles and endpoint geometry.  Any difference between reruns
is confined to identifier numbering. -/
theorem pipeline_counter_independent (content : Str) (c1 c2 : Nat) :
    (convert_plantuml content c1).map stripDoc = (convert_plantuml content c2).map stripDoc := by
  unfold convert_plantuml
  by_cases hd : detect_diagram_type content = DiagramType.UNKNOWN
  · simp [hd]
  · rcases hp : parsePlant content with e | m
    · simp [hd, hp]
    · rcases m with m | m | m | m
      · simp [hd, hp, Except.map, generate_sequence_strip m c1 c2]
      · simp [hd, hp, Except.map, generate_class_strip m c1 c2]
      · simp [hd, hp, Except.map, generate_usecase_strip m c1 c2]
      · simp [hd, hp, Except.map, generate_activity_strip m c1 c2]
